import Mathlib

set_option maxRecDepth 100000

/-!
Shallow embedding of the frame-receiving core of libwsc
(`WebSocketReceiver.cpp` / `WebSocketReceiver.h`).

Bytes are modelled as natural numbers; the C++ `unsigned char` bound
(`b < 256`) appears as an explicit hypothesis where a theorem needs it.
Calls into the `IWebSocketSinks` interface are modelled as a list of
emitted `RxEvent`s.  zlib's `deflate`/`inflate` are external library
code and are modelled as abstract oracles; the control logic around
them (buffer sizing, retry policy, `Z_BUF_ERROR` classification,
SYNC_FLUSH trailer handling) is translated byte-for-byte from the
source.  The incremental `Utf8Validator` class is not part of the
provided sources (only `Utf8Validator.h` is included by the receiver),
so it is modelled from the specification, as documented at its
definition.
-/

/-- Events delivered to the `IWebSocketSinks` interface by the receiver. -/
inductive RxEvent
  | protocolError (code : Nat)
  | close (code : Nat) (reason : List Nat)
  | ping (payload : List Nat)
  | pong (payload : List Nat)
  | text (payload : List Nat)
  | binary (payload : List Nat)
deriving DecidableEq

mutual

/-- `WebSocketReceiver::isValidUtf8`, translated from the source
(`WebSocketReceiver.cpp`): iterative RFC 3629 validation over the byte
string, rejecting 0xC0/0xC1/0xF5.., overlongs, surrogates, code points
above U+10FFFF, bad continuation bytes and truncated sequences.  The
three continuation-byte branches of the C++ loop body are split into
the `utf8Tail` helpers below, one per sequence length. -/
def isValidUtf8 : List Nat → Bool
  | [] => true
  | b :: rest =>
    if b ≤ 0x7F then isValidUtf8 rest
    else if 0xF5 ≤ b ∨ (0xC0 ≤ b ∧ b ≤ 0xC1) then false
    else if b &&& 0xE0 = 0xC0 then utf8Tail1 rest
    else if b &&& 0xF0 = 0xE0 then utf8Tail2 b rest
    else if b &&& 0xF8 = 0xF0 then utf8Tail3 b rest
    else false

/-- The 2-byte branch of `isValidUtf8`: checks the continuation byte
(the `i + 1 >= len` bounds check of the source is the catch-all). -/
def utf8Tail1 : List Nat → Bool
  | b1 :: rest1 =>
    if ¬ (b1 &&& 0xC0 = 0x80) then false
    else isValidUtf8 rest1
  | _ => false

/-- The 3-byte branch of `isValidUtf8`: continuation bytes, overlong
(0xE0) and surrogate (0xED) checks. -/
def utf8Tail2 (b : Nat) : List Nat → Bool
  | b1 :: b2 :: rest2 =>
    if ¬ (b1 &&& 0xC0 = 0x80) ∨ ¬ (b2 &&& 0xC0 = 0x80) then false
    else if b = 0xE0 ∧ b1 < 0xA0 then false
    else if b = 0xED ∧ 0xA0 ≤ b1 then false
    else isValidUtf8 rest2
  | _ => false

/-- The 4-byte branch of `isValidUtf8`: continuation bytes, overlong
(0xF0) and above-U+10FFFF (0xF4) checks. -/
def utf8Tail3 (b : Nat) : List Nat → Bool
  | b1 :: b2 :: b3 :: rest3 =>
    if ¬ (b1 &&& 0xC0 = 0x80) ∨ ¬ (b2 &&& 0xC0 = 0x80) ∨
       ¬ (b3 &&& 0xC0 = 0x80) then false
    else if b = 0xF0 ∧ b1 < 0x90 then false
    else if b = 0xF4 ∧ 0x8F < b1 then false
    else isValidUtf8 rest3
  | _ => false

end

/-- Reference UTF-8 encoding of a Unicode scalar value (RFC 3629). -/
def utf8EncodeCp (c : Nat) : List Nat :=
  if c < 0x80 then [c]
  else if c < 0x800 then [0xC0 + c / 64, 0x80 + c % 64]
  else if c < 0x10000 then
    [0xE0 + c / 4096, 0x80 + c / 64 % 64, 0x80 + c % 64]
  else
    [0xF0 + c / 262144, 0x80 + c / 4096 % 64, 0x80 + c / 64 % 64, 0x80 + c % 64]

/-- A Unicode scalar value: at most U+10FFFF and not a UTF-16 surrogate. -/
def IsScalar (c : Nat) : Prop := c ≤ 0x10FFFF ∧ ¬ (0xD800 ≤ c ∧ c ≤ 0xDFFF)

instance (c : Nat) : Decidable (IsScalar c) := by unfold IsScalar; infer_instance

/-- Well-formed UTF-8: a concatenation of encodings of scalar values. -/
def IsUtf8Chain (bs : List Nat) : Prop :=
  ∃ cs : List Nat, (∀ c ∈ cs, IsScalar c) ∧ bs = (cs.map utf8EncodeCp).flatten

/-- Modelled from the spec: the incremental `Utf8Validator` used by the
receiver is declared in `Utf8Validator.h`, which is not among the provided
sources.  Per §4.A the validator feeds chunks incrementally, fails on any
invalid sequence (overlong, surrogate, above U+10FFFF, invalid
continuation, bytes 0xC0/0xC1/0xF5..0xFF), `finish()` fails iff a
multi-byte sequence is incomplete, and `reset()` clears partial state.
The state is the number of still-expected continuation bytes together
with the admissible range for the next byte. -/
structure Utf8State where
  need : Nat
  lo : Nat
  hi : Nat
deriving DecidableEq

/-- Modelled from the spec: validator state right after `reset()`. -/
def utf8Init : Utf8State := ⟨0, 0x80, 0xBF⟩

/-- Modelled from the spec: feeding one byte to the incremental validator;
`none` means the byte sequence is invalid. -/
def utf8FeedByte (s : Utf8State) (b : Nat) : Option Utf8State :=
  if 0 < s.need then
    if s.lo ≤ b ∧ b ≤ s.hi then some ⟨s.need - 1, 0x80, 0xBF⟩ else none
  else
    if b ≤ 0x7F then some utf8Init
    else if b = 0xC0 ∨ b = 0xC1 ∨ 0xF5 ≤ b then none
    else if 0xC2 ≤ b ∧ b ≤ 0xDF then some ⟨1, 0x80, 0xBF⟩
    else if b = 0xE0 then some ⟨2, 0xA0, 0xBF⟩
    else if 0xE1 ≤ b ∧ b ≤ 0xEC then some ⟨2, 0x80, 0xBF⟩
    else if b = 0xED then some ⟨2, 0x80, 0x9F⟩
    else if 0xEE ≤ b ∧ b ≤ 0xEF then some ⟨2, 0x80, 0xBF⟩
    else if b = 0xF0 then some ⟨3, 0x90, 0xBF⟩
    else if 0xF1 ≤ b ∧ b ≤ 0xF3 then some ⟨3, 0x80, 0xBF⟩
    else if b = 0xF4 then some ⟨3, 0x80, 0x8F⟩
    else none

/-- Modelled from the spec: `Utf8Validator::validateChunk` over a chunk. -/
def utf8Feed (s : Utf8State) : List Nat → Option Utf8State
  | [] => some s
  | b :: rest =>
    match utf8FeedByte s b with
    | none => none
    | some t => utf8Feed t rest

/-- Whole-message validation: `reset(); validateChunk(m); validateFinal()`. -/
def utf8ValidFull (bs : List Nat) : Bool :=
  match utf8Feed utf8Init bs with
  | some u => u.need == 0
  | none => false

/-- Close codes accepted by `WebSocketReceiver::handleCloseFrame`. -/
def validCloseCode (c : Nat) : Prop :=
  (1000 ≤ c ∧ c ≤ 1011 ∧ c ≠ 1004 ∧ c ≠ 1005 ∧ c ≠ 1006) ∨
  (3000 ≤ c ∧ c ≤ 4999)

instance (c : Nat) : Decidable (validCloseCode c) := by
  unfold validCloseCode; infer_instance

/-- `WebSocketReceiver::handleCloseFrame`, translated from the source:
returns the `(code, reason)` pair delivered to `onRxClose`. -/
def handleCloseFrame (p : List Nat) : Nat × List Nat :=
  if 125 < p.length then (1002, [])
  else if p.length = 1 then (1002, [])
  else if 2 ≤ p.length then
    let received := p.getD 0 0 * 256 + p.getD 1 0
    let reason := (p.drop 2).take 123
    if ¬ validCloseCode received ∨ (2 < p.length ∧ isValidUtf8 reason = false) then
      (1002, [])
    else (received, reason)
  else (1000, [])

/-- The close-frame sanitization rule exactly as claim C2 states it:
0 bytes give 1000, 1 byte gives 1002, and any payload of two or more
bytes is parsed as a big-endian code followed by at most 123 reason
bytes, rewritten to `(1002, "")` iff the code or the reason is invalid. -/
def closeClaimRule (p : List Nat) : Nat × List Nat :=
  if p.length = 0 then (1000, [])
  else if p.length = 1 then (1002, [])
  else
    let received := p.getD 0 0 * 256 + p.getD 1 0
    let reason := (p.drop 2).take 123
    if ¬ validCloseCode received ∨ isValidUtf8 reason = false then (1002, [])
    else (received, reason)

/-- `WebSocketReceiver::handlePingFrame`, translated from the source. -/
def handlePingFrame (payload : List Nat) : List RxEvent :=
  if 125 < payload.length then [.protocolError 1002]
  else [.ping payload]

/-- Mutable receiver fields relevant to frame handling
(`WebSocketReceiver.h`): fragment-assembly state and the UTF-8
validator. -/
structure RecvState where
  msgInProgress : Bool
  compressedInProgress : Bool
  fragOpcode : Nat
  fragMsg : List Nat
  utf8 : Utf8State
deriving DecidableEq

/-- Tail of `WebSocketReceiver::handleContinuationFrame` after the `fin`
frame has been appended (and the message decompressed when compressed):
the `switch (fragmented_opcode)` block plus the state reset that follows
it, translated from the source. -/
def contFinish (st : RecvState) : RecvState × List RxEvent :=
  if st.fragOpcode = 1 then
    let ok : Bool :=
      if st.compressedInProgress then
        match utf8Feed utf8Init st.fragMsg with
        | some u => u.need == 0
        | none => false
      else st.utf8.need == 0
    if ok then
      ({ st with msgInProgress := false, compressedInProgress := false,
                 fragMsg := [], fragOpcode := 0, utf8 := utf8Init },
       [.text st.fragMsg])
    else ({ st with utf8 := utf8Init }, [.protocolError 1007])
  else if st.fragOpcode = 2 then
    ({ st with msgInProgress := false, compressedInProgress := false,
               fragMsg := [], fragOpcode := 0 },
     [.binary st.fragMsg])
  else (st, [.protocolError 1002])

/-- `WebSocketReceiver::handleContinuationFrame`, translated from the
source.  `infl` abstracts `decompressMessage` (zlib inflate);
`none` models a `decompressMessage` failure. -/
def handleContinuationFrame (infl : List Nat → Option (List Nat))
    (st : RecvState) (payload : List Nat) (fin : Bool) :
    RecvState × List RxEvent :=
  if st.msgInProgress = false then (st, [.protocolError 1002])
  else
    let st1 := { st with fragMsg := st.fragMsg ++ payload }
    let chunk : Option Utf8State :=
      if st1.compressedInProgress = false ∧ st1.fragOpcode = 1 then
        utf8Feed st1.utf8 payload
      else some st1.utf8
    match chunk with
    | none => ({ st1 with utf8 := utf8Init }, [.protocolError 1007])
    | some u =>
      let st2 := { st1 with utf8 := u }
      if fin = false then (st2, [])
      else if st2.compressedInProgress then
        match infl st2.fragMsg with
        | none => ({ st2 with utf8 := utf8Init }, [.protocolError 1007])
        | some d => contFinish { st2 with fragMsg := d }
      else contFinish st2

/-- `WebSocketReceiver::handleDataFrame`, translated from the source.
`comp` is `_sinks.rxCompressionEnabled()`; `infl` abstracts
`decompressMessage`. -/
def handleDataFrame (infl : List Nat → Option (List Nat)) (comp : Bool)
    (st : RecvState) (payload : List Nat) (fin : Bool) (opcode : Nat)
    (rsv1 : Bool) : RecvState × List RxEvent :=
  if st.msgInProgress = true then (st, [.protocolError 1002])
  else
    let compressed := rsv1 && comp
    if fin = false then
      let st1 := { st with msgInProgress := true, fragOpcode := opcode,
                           fragMsg := payload,
                           compressedInProgress := compressed }
      if opcode = 1 ∧ compressed = false then
        match utf8Feed utf8Init payload with
        | none => ({ st1 with utf8 := utf8Init }, [.protocolError 1007])
        | some u => ({ st1 with utf8 := u }, [])
      else (st1, [])
    else
      let msg? : Option (List Nat) :=
        if compressed = true then infl payload else some payload
      match msg? with
      | none => (st, [.protocolError 1007])
      | some msg =>
        if opcode = 1 then
          match utf8Feed utf8Init msg with
          | none => ({ st with utf8 := utf8Init }, [.protocolError 1007])
          | some u =>
            if u.need = 0 then ({ st with utf8 := u }, [.text msg])
            else ({ st with utf8 := utf8Init }, [.protocolError 1007])
        else if opcode = 2 then (st, [.binary msg])
        else (st, [.protocolError 1002])

/-- Big-endian value of a byte list (network byte order, as read by
`ntohs`/`ntohll` in the source). -/
def beVal (bs : List Nat) : Nat := bs.foldl (fun a b => a * 256 + b) 0

/-- Header length as computed by `WebSocketReceiver::onData` from the
7-bit length field. -/
def extHeaderLen (l7 : Nat) : Nat :=
  if l7 = 126 then 4 else if l7 = 127 then 10 else 2

/-- Payload length as computed by `WebSocketReceiver::onData`:
`rest` holds the buffered bytes after the first two header bytes. -/
def extPayloadLen (l7 : Nat) (rest : List Nat) : Nat :=
  if l7 = 126 then beVal (rest.take 2)
  else if l7 = 127 then beVal (rest.take 8)
  else l7

/-- Outcome of one iteration of the `for (;;)` loop of
`WebSocketReceiver::onData`: `wait` models `break` (frame incomplete),
`protoErr` models the early `return` paths (nothing drained),
`cont` models dispatch followed by `evbuffer_drain`. -/
inductive StepResult
  | wait
  | protoErr (st : RecvState) (evs : List RxEvent)
  | cont (st : RecvState) (evs : List RxEvent) (rest : List Nat)
deriving DecidableEq

/-- Events emitted by a step. -/
def stepEvents : StepResult → List RxEvent
  | .wait => []
  | .protoErr _ evs => evs
  | .cont _ evs _ => evs

/-- One iteration of the frame-processing loop of
`WebSocketReceiver::onData`, translated from the source: header peek,
the six validity checks, extended-length parsing, and dispatch on the
opcode. -/
def onDataStep (infl : List Nat → Option (List Nat)) (comp : Bool)
    (st : RecvState) (buf : List Nat) : StepResult :=
  match buf with
  | b0 :: b1 :: rest =>
    if (comp = false ∧ b0 &&& 0x40 ≠ 0) ∨ b0 &&& 0x20 ≠ 0 ∨ b0 &&& 0x10 ≠ 0 then
      .protoErr st [.protocolError 1002]
    else if b0 &&& 0x08 ≠ 0 ∧ b0 &&& 0x80 = 0 then
      .protoErr st [.protocolError 1002]
    else if b1 &&& 0x80 ≠ 0 then
      .protoErr st [.protocolError 1002]
    else if b1 &&& 0x7F = 126 ∧ buf.length < 4 then .wait
    else if b1 &&& 0x7F = 127 ∧ buf.length < 10 then .wait
    else
      let hlen := extHeaderLen (b1 &&& 0x7F)
      let plen := extPayloadLen (b1 &&& 0x7F) rest
      if b0 &&& 0x08 ≠ 0 ∧ 125 < plen then .protoErr st [.protocolError 1002]
      else if buf.length < hlen + plen then .wait
      else
        let payload := (buf.drop hlen).take plen
        let restBuf := buf.drop (hlen + plen)
        if b0 &&& 0x0F = 0 then
          let r := handleContinuationFrame infl st payload (b0 &&& 0x80 != 0)
          .cont r.1 r.2 restBuf
        else if b0 &&& 0x0F = 1 ∨ b0 &&& 0x0F = 2 then
          let r := handleDataFrame infl comp st payload (b0 &&& 0x80 != 0)
                     (b0 &&& 0x0F) (b0 &&& 0x40 != 0)
          .cont r.1 r.2 restBuf
        else if b0 &&& 0x0F = 8 then
          let r := handleCloseFrame payload
          .cont st [.close r.1 r.2] restBuf
        else if b0 &&& 0x0F = 9 then
          .cont st (handlePingFrame payload) restBuf
        else if b0 &&& 0x0F = 10 then
          .cont st [] restBuf
        else .protoErr st [.protocolError 1002]
  | _ => .wait

/-- zlib return codes used by the source. -/
def zOk : Int := 0

/-- zlib `Z_STREAM_END`. -/
def zStreamEnd : Int := 1

/-- zlib `Z_BUF_ERROR`. -/
def zBufError : Int := -5

/-- The 4-byte SYNC_FLUSH trailer `00 00 FF FF`. -/
def syncTail : List Nat := [0x00, 0x00, 0xFF, 0xFF]

/-- Result of one zlib `deflate(..., Z_SYNC_FLUSH)` call, as seen by the
caller: the return code and the bytes written to the output buffer. -/
structure DeflStep where
  ret : Int
  produced : List Nat
deriving DecidableEq

/-- Abstract model of the zlib deflate stream.  `W` is the opaque
internal stream state; `init` is the state right after
`deflateInit2` (and, per zlib's documented semantics, after
`deflateReset`).  `bound` models `deflateBound`, `step`/`next` model a
single `deflate(..., Z_SYNC_FLUSH)` call given the stream state, the
input bytes and `avail_out`, and `initRet` is the return code of the
`deflateInit2` performed by `txReinitAfterNoContextTakeover`. -/
structure DeflOracle (W : Type) where
  init : W
  bound : W → Nat → Nat
  step : W → List Nat → Nat → DeflStep
  next : W → List Nat → Nat → W
  initRet : Int

/-- Result of `WebSocketReceiver::txDeflate` together with the receiver
fields it writes: `buf` is `tx_compressed_buf` (meaningful on success),
`payloadLen` is `tx_payload_len`, `w` the deflate stream state,
`inited` the `deflate_initialized` flag, and `calls` records the
`avail_out` value handed to each `deflate` invocation, in order. -/
structure TxResult (W : Type) where
  ok : Bool
  buf : List Nat
  payloadLen : Nat
  w : W
  inited : Bool
  calls : List Nat
deriving DecidableEq

/-- The attempt loop of `WebSocketReceiver::txDeflate`, translated from
the source.  Each attempt starts with `txResetDeflate()` (zlib
`deflateReset`, modelled as restoring `orc.init`), computes
`deflateBound + 64 * (attempt + 1)`, performs one SYNC_FLUSH deflate
step, retries on `Z_BUF_ERROR`/filled output, and accepts only an
output of at least 4 bytes ending in `00 00 FF FF`, whose trailer is
stripped from `tx_payload_len`.  On success with
`client_no_context_takeover` the stream is torn down and
re-initialized (`txReinitAfterNoContextTakeover`).  `fuel` is 4 at the
top call, matching the `attempt < 4` loop bound. -/
def txDeflateGo {W : Type} (orc : DeflOracle W) (noCtx : Bool)
    (m : List Nat) : Nat → Nat → W → List Nat → TxResult W
  | 0, _, w, log => ⟨false, [], 0, w, true, log⟩
  | fuel + 1, attempt, w, log =>
    if 4 ≤ attempt then ⟨false, [], 0, w, true, log⟩
    else
      let bound := orc.bound orc.init m.length + 64 * (attempt + 1)
      let s := orc.step orc.init m bound
      let produced := s.produced.take bound
      let availOut := bound - produced.length
      let w2 := orc.next orc.init m bound
      let log2 := log ++ [bound]
      if s.ret ≠ zOk then
        if s.ret = zBufError ∨ availOut = 0 then
          txDeflateGo orc noCtx m fuel (attempt + 1) w2 log2
        else ⟨false, [], 0, w2, true, log2⟩
      else if produced.length < 4 then
        txDeflateGo orc noCtx m fuel (attempt + 1) w2 log2
      else if produced.drop (produced.length - 4) ≠ syncTail then
        txDeflateGo orc noCtx m fuel (attempt + 1) w2 log2
      else
        if noCtx then
          if orc.initRet = zOk then
            ⟨true, produced, produced.length - 4, orc.init, true, log2⟩
          else ⟨false, produced, produced.length - 4, orc.init, false, log2⟩
        else ⟨true, produced, produced.length - 4, w2, true, log2⟩

/-- `WebSocketReceiver::txDeflate`, translated from the source.
`inited` is `deflate_initialized`, `noCtx` is
`_cfg.client_no_context_takeover`, `w` the current deflate stream
state. -/
def txDeflate {W : Type} (orc : DeflOracle W) (inited noCtx : Bool)
    (w : W) (m : List Nat) : TxResult W :=
  if inited then txDeflateGo orc noCtx m 4 0 w []
  else ⟨false, [], 0, w, false, []⟩

/-- The out-parameters of `WebSocketReceiver::txPrepare`: its boolean
return, the payload bytes designated by `payload_ptr`/`payload_len`,
and `do_compress`. -/
structure PrepOut where
  ret : Bool
  payload : List Nat
  doCompress : Bool
deriving DecidableEq

/-- `WebSocketReceiver::txPrepare`, translated from the source.
`enabled` is `_cfg.enabled`. -/
def txPrepare {W : Type} (orc : DeflOracle W) (enabled inited noCtx : Bool)
    (w : W) (m : List Nat) (requestCompress : Bool) : PrepOut :=
  if requestCompress = false then ⟨true, m, false⟩
  else if enabled = false then ⟨true, m, false⟩
  else if inited = false then ⟨true, m, false⟩
  else if (txDeflate orc inited noCtx w m).ok then
    ⟨true, (txDeflate orc inited noCtx w m).buf.take
             (txDeflate orc inited noCtx w m).payloadLen, true⟩
  else ⟨true, m, false⟩

/-- Result of one zlib `inflate(..., Z_SYNC_FLUSH)` call: return code,
input bytes consumed and bytes written to the 4096-byte chunk. -/
structure InflStep where
  ret : Int
  consumed : Nat
  produced : List Nat

/-- Result of `WebSocketReceiver::rxInflate`: `done` carries the output
vector of a `true` return, `fail` is a `false` return, `fuelOut` marks
exhaustion of the modelling fuel (the real loop has no such case). -/
inductive InflRes
  | done (out : List Nat)
  | fail
  | fuelOut
deriving DecidableEq

/-- The `while (true)` loop of `WebSocketReceiver::rxInflate`,
translated from the source.  The oracle receives the remaining input
bytes and the call index; `src` is the remaining input (`next_in` /
`avail_in`), `acc` the accumulated output vector.  Each iteration
offers a 4096-byte output chunk, classifies `Z_BUF_ERROR` (continue
when the chunk was filled, success when input is exhausted, hard
failure on a true stall), fails on any other non-`Z_OK`,
non-`Z_STREAM_END` return, appends the produced bytes, and stops on
`Z_STREAM_END` or when input is consumed with output space left. -/
def rxInflateLoop (orc : List Nat → Nat → InflStep) :
    Nat → Nat → List Nat → List Nat → InflRes
  | 0, _, _, _ => .fuelOut
  | fuel + 1, idx, src, acc =>
    let s := orc src idx
    let produced := s.produced.take 4096
    let availOut := 4096 - produced.length
    let src2 := src.drop (min s.consumed src.length)
    if s.ret = zBufError then
      if availOut = 0 then rxInflateLoop orc fuel (idx + 1) src2 acc
      else if src2.length = 0 then .done acc
      else .fail
    else if s.ret ≠ zOk ∧ s.ret ≠ zStreamEnd then .fail
    else
      let acc2 := acc ++ produced
      if s.ret = zStreamEnd then .done acc2
      else if src2.length = 0 ∧ availOut ≠ 0 then .done acc2
      else rxInflateLoop orc fuel (idx + 1) src2 acc2

/-- `WebSocketReceiver::rxInflate`, translated from the source: when
compression is off it copies the input through; otherwise it appends
the SYNC_FLUSH trailer `00 00 FF FF` to the received payload and runs
the inflate loop. -/
def rxInflate (enabled inited : Bool) (orc : List Nat → Nat → InflStep)
    (fuel : Nat) (inBytes : List Nat) : InflRes :=
  if enabled = false ∨ inited = false then .done inBytes
  else rxInflateLoop orc fuel 0 (inBytes ++ syncTail) []

/-- `decompressMessage` as a function usable by the frame handlers,
built on `rxInflate`; a `false` return of the C++ function becomes
`none`. -/
def inflFn (enabled inited : Bool) (orc : List Nat → Nat → InflStep)
    (fuel : Nat) : List Nat → Option (List Nat) := fun b =>
  match rxInflate enabled inited orc fuel b with
  | .done o => some o
  | _ => none

/-- A receiver state with no message in progress. -/
def st0 : RecvState := ⟨false, false, 0, [], utf8Init⟩

/-- A receiver state mid-assembly of an uncompressed text message. -/
def stInProg : RecvState := ⟨true, false, 1, [0x61], utf8Init⟩

/-- The output-buffer sizes used by `k` consecutive deflate attempts
starting at attempt number `a`: slack of `64 * (attempt + 1)` bytes
beyond the `deflateBound` value `b`. -/
def boundsFrom (b : Nat) : Nat → Nat → List Nat
  | _, 0 => []
  | a, k + 1 => (b + 64 * (a + 1)) :: boundsFrom b (a + 1) k

/-- A deflate oracle whose single SYNC_FLUSH step succeeds, producing
the input followed by the `00 00 FF FF` trailer. -/
def orcW : DeflOracle Nat :=
  ⟨0, fun _ n => n, fun _ m _ => ⟨0, m ++ [0, 0, 0xFF, 0xFF]⟩, fun _ _ _ => 1, 0⟩

example : handleCloseFrame [] = (1000, []) := by decide
example : handleCloseFrame [3] = (1002, []) := by decide
example : handleCloseFrame [3, 0xE8] = (1000, []) := by decide
example : handleCloseFrame [3, 0xED] = (1002, []) := by decide
example : handleCloseFrame [3, 0xE8, 0x61] = (1000, [0x61]) := by decide
example : handleCloseFrame [3, 0xE8, 0xFF] = (1002, []) := by decide
example : isValidUtf8 [0xE2, 0x82, 0xAC] = true := by decide
example : isValidUtf8 [0xED, 0xA0, 0x80] = false := by decide
example : utf8ValidFull [0xE2, 0x82, 0xAC] = true := by decide
example : utf8ValidFull [0xE2, 0x82] = false := by decide

/-- C7: a continuation frame with no fragmented message in progress, and
a new data frame while one is in progress, each yield exactly
`onRxProtocolError 1002` with the receiver state (in particular the
assembly buffer) unmodified. -/
theorem c7_fragment_sequencing
    (infl : List Nat → Option (List Nat)) (comp : Bool) (st : RecvState)
    (payload : List Nat) (fin : Bool) (opcode : Nat) (rsv1 : Bool) :
    (st.msgInProgress = false →
      handleContinuationFrame infl st payload fin =
        (st, [.protocolError 1002])) ∧
    (st.msgInProgress = true →
      handleDataFrame infl comp st payload fin opcode rsv1 =
        (st, [.protocolError 1002])) := by
  constructor
  · intro h
    simp [handleContinuationFrame, h]
  · intro h
    simp [handleDataFrame, h]

/-- Witness for C7 at concrete states and payloads. -/
theorem c7_witness :
    (st0.msgInProgress = false ∧
      handleContinuationFrame (fun _ => none) st0 [1] true =
        (st0, [.protocolError 1002])) ∧
    (stInProg.msgInProgress = true ∧
      handleDataFrame (fun _ => none) false stInProg [1] true 1 false =
        (stInProg, [.protocolError 1002])) :=
  ⟨⟨rfl, (c7_fragment_sequencing (fun _ => none) false st0 [1] true 1 false).1 rfl⟩,
   ⟨rfl, (c7_fragment_sequencing (fun _ => none) false stInProg [1] true 1 false).2 rfl⟩⟩

/-- C6: `txPrepare` always returns `true`; it falls back to the original
payload uncompressed whenever compression is not requested, not
negotiated, not initialized, or `txDeflate` fails, and yields the
compressed buffer with `do_compress = true` exactly on deflate
success. -/
theorem c6_txPrepare_total {W : Type} (orc : DeflOracle W)
    (enabled inited noCtx req : Bool) (w : W) (m : List Nat) :
    (txPrepare orc enabled inited noCtx w m req).ret = true ∧
    (req = false ∨ enabled = false ∨ inited = false ∨
        (txDeflate orc inited noCtx w m).ok = false →
      txPrepare orc enabled inited noCtx w m req = ⟨true, m, false⟩) ∧
    (req = true → enabled = true → inited = true →
        (txDeflate orc inited noCtx w m).ok = true →
      txPrepare orc enabled inited noCtx w m req =
        ⟨true, (txDeflate orc inited noCtx w m).buf.take
                  (txDeflate orc inited noCtx w m).payloadLen, true⟩) := by
  refine ⟨?_, ?_, ?_⟩
  · unfold txPrepare
    split_ifs <;> rfl
  · intro h
    unfold txPrepare
    split_ifs with h1 h2 h3 h4
    · rfl
    · rfl
    · rfl
    · rcases h with h | h | h | h
      · exact absurd h h1
      · exact absurd h h2
      · exact absurd h h3
      · rw [h] at h4
        exact absurd h4 Bool.false_ne_true
    · rfl
  · intro hreq hen hin hok
    subst hreq
    subst hen
    subst hin
    unfold txPrepare
    rw [if_neg (by simp), if_neg (by simp), if_neg (by simp), if_pos hok]

/-- Witness for C6: a trivial oracle whose single deflate step succeeds
with a SYNC_FLUSH trailer, and the not-requested fallback. -/
theorem c6_witness :
    ((false : Bool) = false ∨ (true : Bool) = false ∨ (true : Bool) = false ∨
      (txDeflate (⟨0, fun _ n => n, fun _ m _ => ⟨0, m ++ [0, 0, 0xFF, 0xFF]⟩,
        fun _ _ _ => 1, 0⟩ : DeflOracle Nat) true false 5 [7, 8]).ok = false) ∧
    txPrepare (⟨0, fun _ n => n, fun _ m _ => ⟨0, m ++ [0, 0, 0xFF, 0xFF]⟩,
        fun _ _ _ => 1, 0⟩ : DeflOracle Nat) true true false 5 [7, 8] false =
      ⟨true, [7, 8], false⟩ :=
  ⟨Or.inl rfl,
   (c6_txPrepare_total (⟨0, fun _ n => n, fun _ m _ => ⟨0, m ++ [0, 0, 0xFF, 0xFF]⟩,
      fun _ _ _ => 1, 0⟩ : DeflOracle Nat) true true false false 5 [7, 8]).2.1
    (Or.inl rfl)⟩

/-- One live attempt of the deflate loop depends on the incoming stream
state only through the `deflateReset` performed at its start, so the
result is the same for any two incoming stream states. -/
theorem txDeflateGo_state_indep {W : Type} (orc : DeflOracle W)
    (noCtx : Bool) (m : List Nat) (fuel attempt : Nat) (h : attempt < 4)
    (w1 w2 : W) (log : List Nat) :
    txDeflateGo orc noCtx m (fuel + 1) attempt w1 log =
      txDeflateGo orc noCtx m (fuel + 1) attempt w2 log := by
  have h4 : ¬ 4 ≤ attempt := by omega
  simp only [txDeflateGo, if_neg h4]

/-- C10: `txDeflate` resets the deflate stream at the start of every
attempt, so its whole result, the compressed bytes included, does not
depend on the stream state left by previously compressed messages. -/
theorem c10_txDeflate_context_free {W : Type} (orc : DeflOracle W)
    (noCtx : Bool) (m : List Nat) (w1 w2 : W) :
    txDeflate orc true noCtx w1 m = txDeflate orc true noCtx w2 m := by
  unfold txDeflate
  rw [if_pos rfl, if_pos rfl]
  exact txDeflateGo_state_indep orc noCtx m 3 0 (by omega) w1 w2 []

/-- C2 counterexample: a 126-byte close payload carrying the valid code
1000 and a valid UTF-8 reason is delivered as `(1002, "")` by the code,
while the claim's sanitization rule would deliver it unchanged. -/
theorem c2_counterexample :
    handleCloseFrame (0x03 :: 0xE8 :: List.replicate 124 0x61) ≠
      closeClaimRule (0x03 :: 0xE8 :: List.replicate 124 0x61) := by decide

/-- C2 (amended): for close payloads of at most 125 bytes — the only
ones `onData` ever hands to `handleCloseFrame` — the delivered pair is
exactly the claim's sanitized pair, and any longer payload is delivered
as `(1002, "")`. -/
theorem c2_close_sanitize (p : List Nat) :
    (p.length ≤ 125 → handleCloseFrame p = closeClaimRule p) ∧
    (125 < p.length → handleCloseFrame p = (1002, [])) := by
  constructor
  · intro h
    match p with
    | [] => rfl
    | [a] => rfl
    | a :: b :: rest =>
      unfold handleCloseFrame closeClaimRule
      simp only [List.length_cons, List.drop_succ_cons, List.drop_zero,
        List.getD_cons_zero, List.getD_cons_succ] at h ⊢
      have e1 : ¬ (125 < rest.length + 1 + 1) := by omega
      have e2 : ¬ (rest.length + 1 + 1 = 1) := by omega
      have e3 : 2 ≤ rest.length + 1 + 1 := by omega
      have e4 : ¬ (rest.length + 1 + 1 = 0) := by omega
      simp only [if_neg e1, if_neg e2, if_pos e3, if_neg e4]
      by_cases hv : validCloseCode (a * 256 + b)
      · by_cases hu : isValidUtf8 (List.take 123 rest) = false
        · have hne : rest ≠ [] := by
            intro he
            rw [he] at hu
            exact absurd hu (by decide)
          have hpos : 0 < rest.length := List.length_pos.2 hne
          have hC1 : ¬ validCloseCode (a * 256 + b) ∨
              (2 < rest.length + 1 + 1 ∧ isValidUtf8 (List.take 123 rest) = false) :=
            Or.inr ⟨by omega, hu⟩
          have hC2 : ¬ validCloseCode (a * 256 + b) ∨
              isValidUtf8 (List.take 123 rest) = false := Or.inr hu
          simp only [if_pos hC1, if_pos hC2]
        · have hu' : isValidUtf8 (List.take 123 rest) = true := by
            cases hb : isValidUtf8 (List.take 123 rest)
            · exact absurd hb hu
            · rfl
          have hC1 : ¬ (¬ validCloseCode (a * 256 + b) ∨
              (2 < rest.length + 1 + 1 ∧
                isValidUtf8 (List.take 123 rest) = false)) := by
            rintro (hc | hc)
            · exact hc hv
            · rw [hu'] at hc
              exact absurd hc.2 (by decide)
          have hC2 : ¬ (¬ validCloseCode (a * 256 + b) ∨
              isValidUtf8 (List.take 123 rest) = false) := by
            rintro (hc | hc)
            · exact hc hv
            · rw [hu'] at hc
              exact absurd hc (by decide)
          simp only [if_neg hC1, if_neg hC2]
      · have hC1 : ¬ validCloseCode (a * 256 + b) ∨
            (2 < rest.length + 1 + 1 ∧
              isValidUtf8 (List.take 123 rest) = false) := Or.inl hv
        have hC2 : ¬ validCloseCode (a * 256 + b) ∨
            isValidUtf8 (List.take 123 rest) = false := Or.inl hv
        simp only [if_pos hC1, if_pos hC2]
  · intro h
    unfold handleCloseFrame
    rw [if_pos h]

/-- Witness for C2 at a short and an overlong close payload. -/
theorem c2_witness :
    (([3, 0xE8, 0x61] : List Nat).length ≤ 125 ∧
      handleCloseFrame [3, 0xE8, 0x61] = closeClaimRule [3, 0xE8, 0x61]) ∧
    (125 < (List.replicate 126 (0 : Nat)).length ∧
      handleCloseFrame (List.replicate 126 0) = (1002, [])) :=
  ⟨⟨by decide, (c2_close_sanitize [3, 0xE8, 0x61]).1 (by decide)⟩,
   ⟨by decide, (c2_close_sanitize (List.replicate 126 0)).2 (by decide)⟩⟩

/-- C8 counterexample: a pong frame (opcode 0xA, one payload byte)
arriving mid-fragmentation produces no sink call at all — in
particular no `onRxPong` — contrary to the claim's "pong via
onRxPong"; the fragmentation state is nevertheless unchanged. -/
theorem c8_counterexample :
    RxEvent.pong [0x61] ∉
      stepEvents (onDataStep (fun _ => none) true
        ⟨true, false, 1, [0x61], utf8Init⟩ [0x8A, 0x01, 0x61]) ∧
    onDataStep (fun _ => none) true ⟨true, false, 1, [0x61], utf8Init⟩
        [0x8A, 0x01, 0x61] =
      .cont ⟨true, false, 1, [0x61], utf8Init⟩ [] [0x61].tail := by
  constructor
  · decide
  · decide


/-- C1: for a complete buffered frame, each of the six header validity
rules of `onData` (RSV2 or RSV3 set; RSV1 without negotiated
compression; MASK set on a server-to-client frame; fragmented control
frame; control frame with payload longer than 125; unknown opcode)
produces exactly `onRxProtocolError 1002`, leaves the receiver state
unchanged, and dispatches the payload to no data or control handler. -/
theorem c1_onData_header_rules
    (infl : List Nat → Option (List Nat)) (comp : Bool) (st : RecvState)
    (b0 b1 : Nat) (rest : List Nat)
    (hcomplete : extHeaderLen (b1 &&& 0x7F) + extPayloadLen (b1 &&& 0x7F) rest ≤
      rest.length + 2)
    (hrule :
      b0 &&& 0x20 ≠ 0 ∨ b0 &&& 0x10 ≠ 0 ∨
      (comp = false ∧ b0 &&& 0x40 ≠ 0) ∨
      b1 &&& 0x80 ≠ 0 ∨
      (b0 &&& 0x08 ≠ 0 ∧ b0 &&& 0x80 = 0) ∨
      (b0 &&& 0x08 ≠ 0 ∧ 125 < extPayloadLen (b1 &&& 0x7F) rest) ∨
      ¬ (b0 &&& 0x0F = 0 ∨ b0 &&& 0x0F = 1 ∨ b0 &&& 0x0F = 2 ∨
         b0 &&& 0x0F = 8 ∨ b0 &&& 0x0F = 9 ∨ b0 &&& 0x0F = 10)) :
    onDataStep infl comp st (b0 :: b1 :: rest) =
      .protoErr st [.protocolError 1002] := by
  simp only [onDataStep]
  by_cases h1 : (comp = false ∧ b0 &&& 0x40 ≠ 0) ∨ b0 &&& 0x20 ≠ 0 ∨ b0 &&& 0x10 ≠ 0
  · rw [if_pos h1]
  rw [if_neg h1]
  by_cases h2 : b0 &&& 0x08 ≠ 0 ∧ b0 &&& 0x80 = 0
  · rw [if_pos h2]
  rw [if_neg h2]
  by_cases h3 : b1 &&& 0x80 ≠ 0
  · rw [if_pos h3]
  rw [if_neg h3]
  have h4 : ¬ (b1 &&& 0x7F = 126 ∧ (b0 :: b1 :: rest).length < 4) := by
    rintro ⟨he, hl⟩
    rw [show extHeaderLen (b1 &&& 0x7F) = 4 from by simp [extHeaderLen, he]]
      at hcomplete
    simp only [List.length_cons] at hl
    omega
  rw [if_neg h4]
  have h5 : ¬ (b1 &&& 0x7F = 127 ∧ (b0 :: b1 :: rest).length < 10) := by
    rintro ⟨he, hl⟩
    rw [show extHeaderLen (b1 &&& 0x7F) = 10 from by simp [extHeaderLen, he]]
      at hcomplete
    simp only [List.length_cons] at hl
    omega
  rw [if_neg h5]
  by_cases h6 : b0 &&& 0x08 ≠ 0 ∧ 125 < extPayloadLen (b1 &&& 0x7F) rest
  · rw [if_pos h6]
  rw [if_neg h6]
  have h7 : ¬ ((b0 :: b1 :: rest).length <
      extHeaderLen (b1 &&& 0x7F) + extPayloadLen (b1 &&& 0x7F) rest) := by
    simp only [List.length_cons]
    omega
  rw [if_neg h7]
  have hop : ¬ (b0 &&& 0x0F = 0 ∨ b0 &&& 0x0F = 1 ∨ b0 &&& 0x0F = 2 ∨
      b0 &&& 0x0F = 8 ∨ b0 &&& 0x0F = 9 ∨ b0 &&& 0x0F = 10) := by
    rcases hrule with h | h | h | h | h | h | h
    · exact absurd (Or.inr (Or.inl h)) h1
    · exact absurd (Or.inr (Or.inr h)) h1
    · exact absurd (Or.inl h) h1
    · exact absurd h h3
    · exact absurd h h2
    · exact absurd h h6
    · exact h
  rw [if_neg (fun hc => hop (Or.inl hc))]
  rw [if_neg (fun hc : b0 &&& 0x0F = 1 ∨ b0 &&& 0x0F = 2 =>
    hop (hc.elim (fun h => Or.inr (Or.inl h))
      (fun h => Or.inr (Or.inr (Or.inl h)))))]
  rw [if_neg (fun hc => hop (Or.inr (Or.inr (Or.inr (Or.inl hc)))))]
  rw [if_neg (fun hc => hop (Or.inr (Or.inr (Or.inr (Or.inr (Or.inl hc))))))]
  rw [if_neg (fun hc => hop (Or.inr (Or.inr (Or.inr (Or.inr (Or.inr hc))))))]

/-- Witness for C1: a frame with RSV2 set, on an empty receiver. -/
theorem c1_witness :
    (extHeaderLen (0 &&& 0x7F) + extPayloadLen (0 &&& 0x7F) [] ≤
      List.length ([] : List Nat) + 2) ∧
    ((0x20 : Nat) &&& 0x20 ≠ 0) ∧
    onDataStep (fun _ => none) false st0 [0x20, 0x00] =
      .protoErr st0 [.protocolError 1002] :=
  ⟨by decide, by decide,
   c1_onData_header_rules (fun _ => none) false st0 0x20 0x00 []
     (by decide) (Or.inl (by decide))⟩

/-- C8 (amended): a complete, well-formed control frame (close, ping or
pong) arriving at any receiver state — in particular mid-fragmentation —
is dispatched immediately: close via `onRxClose` with the sanitized
pair, ping via `onRxPing` with the frame's exact payload, while pong is
accepted silently with no sink call; the fragment-assembly state and
the partially assembled payload are unchanged in every case. -/
theorem c8_control_interleave
    (infl : List Nat → Option (List Nat)) (comp : Bool) (st : RecvState)
    (b0 b1 : Nat) (rest : List Nat)
    (hop : b0 &&& 0x0F = 8 ∨ b0 &&& 0x0F = 9 ∨ b0 &&& 0x0F = 10)
    (hfin : b0 &&& 0x80 ≠ 0)
    (hrsv1 : b0 &&& 0x40 = 0) (hrsv2 : b0 &&& 0x20 = 0)
    (hrsv3 : b0 &&& 0x10 = 0) (hmask : b1 &&& 0x80 = 0)
    (hlen : b1 &&& 0x7F ≤ 125) (havail : b1 &&& 0x7F ≤ rest.length) :
    onDataStep infl comp st (b0 :: b1 :: rest) =
      .cont st
        (if b0 &&& 0x0F = 8 then
          [.close (handleCloseFrame (rest.take (b1 &&& 0x7F))).1
                  (handleCloseFrame (rest.take (b1 &&& 0x7F))).2]
         else if b0 &&& 0x0F = 9 then [.ping (rest.take (b1 &&& 0x7F))]
         else [])
        (rest.drop (b1 &&& 0x7F)) := by
  simp only [onDataStep]
  have h1 : ¬ ((comp = false ∧ b0 &&& 0x40 ≠ 0) ∨ b0 &&& 0x20 ≠ 0 ∨
      b0 &&& 0x10 ≠ 0) := by
    push_neg
    exact ⟨fun _ => hrsv1, hrsv2, hrsv3⟩
  rw [if_neg h1]
  rw [if_neg (fun hc : b0 &&& 0x08 ≠ 0 ∧ b0 &&& 0x80 = 0 => hfin hc.2)]
  rw [if_neg (fun hc : b1 &&& 0x80 ≠ 0 => hc hmask)]
  have h126 : ¬ b1 &&& 0x7F = 126 := by omega
  have h127 : ¬ b1 &&& 0x7F = 127 := by omega
  rw [if_neg (fun hc : _ ∧ _ => h126 hc.1)]
  rw [if_neg (fun hc : _ ∧ _ => h127 hc.1)]
  have hplen : extPayloadLen (b1 &&& 0x7F) rest = b1 &&& 0x7F := by
    simp [extPayloadLen, h126, h127]
  have hhlen : extHeaderLen (b1 &&& 0x7F) = 2 := by
    simp [extHeaderLen, h126, h127]
  simp only [hplen, hhlen]
  rw [if_neg (fun hc : _ ∧ _ => by omega)]
  have h7 : ¬ ((b0 :: b1 :: rest).length < 2 + (b1 &&& 0x7F)) := by
    simp only [List.length_cons]
    omega
  rw [if_neg h7]
  have hdrop2 : List.drop 2 (b0 :: b1 :: rest) = rest := rfl
  have hdropAll : List.drop (2 + (b1 &&& 0x7F)) (b0 :: b1 :: rest) =
      List.drop (b1 &&& 0x7F) rest := by
    rw [show 2 + (b1 &&& 0x7F) = ((b1 &&& 0x7F) + 1) + 1 from by omega]
    rw [List.drop_succ_cons, List.drop_succ_cons]
  rcases hop with h8 | h9 | h10
  · have hne0 : ¬ b0 &&& 0x0F = 0 := by omega
    have hne12 : ¬ (b0 &&& 0x0F = 1 ∨ b0 &&& 0x0F = 2) := by
      rintro (hc | hc) <;> omega
    rw [if_neg hne0, if_neg hne12, if_pos h8, hdrop2, hdropAll, if_pos h8]
  · have hne0 : ¬ b0 &&& 0x0F = 0 := by omega
    have hne12 : ¬ (b0 &&& 0x0F = 1 ∨ b0 &&& 0x0F = 2) := by
      rintro (hc | hc) <;> omega
    have hne8 : ¬ b0 &&& 0x0F = 8 := by omega
    rw [if_neg hne0, if_neg hne12, if_neg hne8, if_pos h9, hdrop2, hdropAll,
      if_neg hne8, if_pos h9]
    have : handlePingFrame (List.take (b1 &&& 0x7F) rest) =
        [.ping (List.take (b1 &&& 0x7F) rest)] := by
      unfold handlePingFrame
      rw [if_neg]
      rw [List.length_take]
      omega
    rw [this]
  · have hne0 : ¬ b0 &&& 0x0F = 0 := by omega
    have hne12 : ¬ (b0 &&& 0x0F = 1 ∨ b0 &&& 0x0F = 2) := by
      rintro (hc | hc) <;> omega
    have hne8 : ¬ b0 &&& 0x0F = 8 := by omega
    have hne9 : ¬ b0 &&& 0x0F = 9 := by omega
    rw [if_neg hne0, if_neg hne12, if_neg hne8, if_neg hne9, if_pos h10,
      hdropAll, if_neg hne8, if_neg hne9]

/-- Witness for C8: a ping frame with one payload byte arriving while a
fragmented text message is being assembled. -/
theorem c8_witness :
    ((0x89 : Nat) &&& 0x0F = 8 ∨ (0x89 : Nat) &&& 0x0F = 9 ∨
      (0x89 : Nat) &&& 0x0F = 10) ∧
    onDataStep (fun _ => none) false stInProg [0x89, 0x01, 0x41] =
      .cont stInProg
        (if (0x89 : Nat) &&& 0x0F = 8 then
          [.close (handleCloseFrame (List.take ((0x01 : Nat) &&& 0x7F) [0x41])).1
                  (handleCloseFrame (List.take ((0x01 : Nat) &&& 0x7F) [0x41])).2]
         else if (0x89 : Nat) &&& 0x0F = 9 then
          [.ping (List.take ((0x01 : Nat) &&& 0x7F) [0x41])]
         else [])
        (List.drop ((0x01 : Nat) &&& 0x7F) [0x41]) :=
  ⟨Or.inr (Or.inl (by decide)),
   c8_control_interleave (fun _ => none) false stInProg 0x89 0x01 [0x41]
     (Or.inr (Or.inl (by decide))) (by decide) (by decide) (by decide)
     (by decide) (by decide) (by decide) (by decide)⟩

/-- Length of the attempt-bounds list. -/
theorem boundsFrom_length (b : Nat) : ∀ (k a : Nat),
    (boundsFrom b a k).length = k := by
  intro k
  induction k with
  | zero => intro a; rfl
  | succ k ih =>
    intro a
    simp only [boundsFrom, List.length_cons, ih]

/-- Entry `i` of the attempt-bounds list starting at attempt `a`. -/
theorem boundsFrom_getD (b : Nat) : ∀ (k a i : Nat), i < k →
    (boundsFrom b a k).getD i 0 = b + 64 * (a + i + 1) := by
  intro k
  induction k with
  | zero =>
    intro a i hi
    omega
  | succ k ih =>
    intro a i hi
    match i with
    | 0 => simp [boundsFrom]
    | i + 1 =>
      simp only [boundsFrom, List.getD_cons_succ]
      rw [ih (a + 1) i (by omega)]
      ring_nf

/-- Invariants of the deflate attempt loop: a successful result carries
at least 4 bytes ending in the SYNC_FLUSH trailer, strips exactly that
trailer from `tx_payload_len`, reinitializes the stream under
`client_no_context_takeover`, and the `deflate` calls use the bound
plus 64-byte-growing slack, one call per attempt. -/
theorem txDeflateGo_props {W : Type} (orc : DeflOracle W) (noCtx : Bool)
    (m : List Nat) : ∀ (fuel attempt : Nat) (w : W) (log : List Nat),
    attempt + fuel = 4 →
    ((txDeflateGo orc noCtx m fuel attempt w log).ok = true →
      4 ≤ (txDeflateGo orc noCtx m fuel attempt w log).buf.length ∧
      (txDeflateGo orc noCtx m fuel attempt w log).buf.drop
          ((txDeflateGo orc noCtx m fuel attempt w log).buf.length - 4) =
        syncTail ∧
      (txDeflateGo orc noCtx m fuel attempt w log).payloadLen =
        (txDeflateGo orc noCtx m fuel attempt w log).buf.length - 4 ∧
      (noCtx = true →
        (txDeflateGo orc noCtx m fuel attempt w log).w = orc.init ∧
        (txDeflateGo orc noCtx m fuel attempt w log).inited = true)) ∧
    ∃ k, k ≤ fuel ∧
      (txDeflateGo orc noCtx m fuel attempt w log).calls =
        log ++ boundsFrom (orc.bound orc.init m.length) attempt k := by
  intro fuel
  induction fuel with
  | zero =>
    intro attempt w log hsum
    refine ⟨?_, 0, Nat.le_refl 0, ?_⟩
    · intro hok
      exact absurd hok (by simp [txDeflateGo])
    · simp [txDeflateGo, boundsFrom]
  | succ fuel ih =>
    intro attempt w log hsum
    have hlt : ¬ 4 ≤ attempt := by omega
    simp only [txDeflateGo, if_neg hlt]
    by_cases hret : (orc.step orc.init m
        (orc.bound orc.init m.length + 64 * (attempt + 1))).ret ≠ zOk
    · rw [if_pos hret]
      by_cases hretry : (orc.step orc.init m
            (orc.bound orc.init m.length + 64 * (attempt + 1))).ret = zBufError ∨
          (orc.bound orc.init m.length + 64 * (attempt + 1)) -
            ((orc.step orc.init m (orc.bound orc.init m.length +
              64 * (attempt + 1))).produced.take
                (orc.bound orc.init m.length + 64 * (attempt + 1))).length = 0
      · rw [if_pos hretry]
        obtain ⟨h1, k, hk, hcalls⟩ := ih (attempt + 1)
          (orc.next orc.init m (orc.bound orc.init m.length + 64 * (attempt + 1)))
          (log ++ [orc.bound orc.init m.length + 64 * (attempt + 1)])
          (by omega)
        refine ⟨h1, k + 1, by omega, ?_⟩
        rw [hcalls, List.append_assoc]
        rfl
      · rw [if_neg hretry]
        refine ⟨?_, 1, by omega, ?_⟩
        · intro hok
          exact absurd hok (by simp)
        · simp [boundsFrom]
    · rw [if_neg hret]
      by_cases hsmall : ((orc.step orc.init m (orc.bound orc.init m.length +
          64 * (attempt + 1))).produced.take
            (orc.bound orc.init m.length + 64 * (attempt + 1))).length < 4
      · rw [if_pos hsmall]
        obtain ⟨h1, k, hk, hcalls⟩ := ih (attempt + 1)
          (orc.next orc.init m (orc.bound orc.init m.length + 64 * (attempt + 1)))
          (log ++ [orc.bound orc.init m.length + 64 * (attempt + 1)])
          (by omega)
        refine ⟨h1, k + 1, by omega, ?_⟩
        rw [hcalls, List.append_assoc]
        rfl
      · rw [if_neg hsmall]
        by_cases htail : ((orc.step orc.init m (orc.bound orc.init m.length +
            64 * (attempt + 1))).produced.take
              (orc.bound orc.init m.length + 64 * (attempt + 1))).drop
            (((orc.step orc.init m (orc.bound orc.init m.length +
              64 * (attempt + 1))).produced.take
                (orc.bound orc.init m.length + 64 * (attempt + 1))).length - 4) ≠
            syncTail
        · rw [if_pos htail]
          obtain ⟨h1, k, hk, hcalls⟩ := ih (attempt + 1)
            (orc.next orc.init m (orc.bound orc.init m.length + 64 * (attempt + 1)))
            (log ++ [orc.bound orc.init m.length + 64 * (attempt + 1)])
            (by omega)
          refine ⟨h1, k + 1, by omega, ?_⟩
          rw [hcalls, List.append_assoc]
          rfl
        · rw [if_neg htail]
          push_neg at htail hsmall
          by_cases hnc : noCtx = true
          · rw [if_pos hnc]
            by_cases hinit : orc.initRet = zOk
            · rw [if_pos hinit]
              exact ⟨fun _ => ⟨hsmall, htail, rfl, fun _ => ⟨rfl, rfl⟩⟩,
                1, by omega, by simp [boundsFrom]⟩
            · rw [if_neg hinit]
              refine ⟨?_, 1, by omega, by simp [boundsFrom]⟩
              intro hok
              exact absurd hok (by simp)
          · rw [if_neg hnc]
            exact ⟨fun _ => ⟨hsmall, htail, rfl, fun hc => absurd hc hnc⟩,
              1, by omega, by simp [boundsFrom]⟩

/-- C4: a successful `txDeflate` produces at least 4 bytes ending in the
exact trailer `00 00 FF FF`, sets `tx_payload_len` to the produced
length minus 4, reinitializes the deflate stream when
`client_no_context_takeover` is negotiated, and across its at most four
attempts each `deflate` call gets an output budget of
`deflateBound + 64 * (attempt + 1)`. -/
theorem c4_txDeflate_spec {W : Type} (orc : DeflOracle W) (noCtx : Bool)
    (w : W) (m : List Nat) :
    ((txDeflate orc true noCtx w m).ok = true →
      4 ≤ (txDeflate orc true noCtx w m).buf.length ∧
      (txDeflate orc true noCtx w m).buf.drop
          ((txDeflate orc true noCtx w m).buf.length - 4) = syncTail ∧
      (txDeflate orc true noCtx w m).payloadLen =
        (txDeflate orc true noCtx w m).buf.length - 4 ∧
      (noCtx = true → (txDeflate orc true noCtx w m).w = orc.init ∧
        (txDeflate orc true noCtx w m).inited = true)) ∧
    (txDeflate orc true noCtx w m).calls.length ≤ 4 ∧
    ∀ i, i < (txDeflate orc true noCtx w m).calls.length →
      (txDeflate orc true noCtx w m).calls.getD i 0 =
        orc.bound orc.init m.length + 64 * (i + 1) := by
  obtain ⟨h1, k, hk, hcalls⟩ := txDeflateGo_props orc noCtx m 4 0 w [] (by omega)
  unfold txDeflate
  rw [if_pos rfl]
  refine ⟨h1, ?_, ?_⟩
  · rw [hcalls]
    simp only [List.nil_append, boundsFrom_length]
    omega
  · intro i hi
    rw [hcalls] at hi ⊢
    simp only [List.nil_append] at hi ⊢
    rw [boundsFrom_length] at hi
    rw [boundsFrom_getD _ _ _ _ hi]
    ring_nf

/-- Witness for C4: the trivial succeeding oracle; the success
conclusions and the bound of the single recorded call. -/
theorem c4_witness :
    ((txDeflate orcW true false 5 [7, 8]).ok = true ∧
      4 ≤ (txDeflate orcW true false 5 [7, 8]).buf.length ∧
      (txDeflate orcW true false 5 [7, 8]).buf.drop
          ((txDeflate orcW true false 5 [7, 8]).buf.length - 4) = syncTail ∧
      (txDeflate orcW true false 5 [7, 8]).payloadLen =
        (txDeflate orcW true false 5 [7, 8]).buf.length - 4) ∧
    (0 < (txDeflate orcW true false 5 [7, 8]).calls.length ∧
      (txDeflate orcW true false 5 [7, 8]).calls.getD 0 0 =
        orcW.bound orcW.init 2 + 64 * (0 + 1)) :=
  ⟨⟨by decide,
    ((c4_txDeflate_spec orcW false 5 [7, 8]).1 (by decide)).1,
    ((c4_txDeflate_spec orcW false 5 [7, 8]).1 (by decide)).2.1,
    ((c4_txDeflate_spec orcW false 5 [7, 8]).1 (by decide)).2.2.1⟩,
   ⟨by decide, (c4_txDeflate_spec orcW false 5 [7, 8]).2.2 0 (by decide)⟩⟩

/-- C5: `rxInflate` appends `00 00 FF FF` to the received payload before
inflating; the loop classifies `Z_BUF_ERROR` as benign-continue when
the output chunk was filled, benign-success when all input is consumed,
and a hard failure exactly on a true stall (input and output space both
remaining); and a failing decompression during message handling yields
exactly `onRxProtocolError 1007`. -/
theorem c5_rxInflate_spec (orc : List Nat → Nat → InflStep)
    (fuel idx : Nat) (src acc inBytes p : List Nat) (st : RecvState)
    (opcode : Nat) :
    (rxInflate true true orc fuel inBytes =
      rxInflateLoop orc fuel 0 (inBytes ++ [0x00, 0x00, 0xFF, 0xFF]) []) ∧
    ((orc src idx).ret = zBufError →
      ((orc src idx).produced.take 4096).length = 4096 →
      rxInflateLoop orc (fuel + 1) idx src acc =
        rxInflateLoop orc fuel (idx + 1)
          (src.drop (min (orc src idx).consumed src.length)) acc) ∧
    ((orc src idx).ret = zBufError →
      ((orc src idx).produced.take 4096).length ≠ 4096 →
      src.drop (min (orc src idx).consumed src.length) = [] →
      rxInflateLoop orc (fuel + 1) idx src acc = .done acc) ∧
    ((orc src idx).ret = zBufError →
      ((orc src idx).produced.take 4096).length ≠ 4096 →
      src.drop (min (orc src idx).consumed src.length) ≠ [] →
      rxInflateLoop orc (fuel + 1) idx src acc = .fail) ∧
    (rxInflate true true orc fuel p = .fail → st.msgInProgress = false →
      handleDataFrame (inflFn true true orc fuel) true st p true opcode true =
        (st, [.protocolError 1007])) ∧
    (rxInflate true true orc fuel (st.fragMsg ++ p) = .fail →
      st.msgInProgress = true → st.compressedInProgress = true →
      handleContinuationFrame (inflFn true true orc fuel) st p true =
        ({ st with fragMsg := st.fragMsg ++ p, utf8 := utf8Init },
         [.protocolError 1007])) := by
  refine ⟨?_, ?_, ?_, ?_, ?_, ?_⟩
  · unfold rxInflate
    rw [if_neg (by simp)]
    rfl
  · intro hret hfull
    simp only [rxInflateLoop, if_pos hret]
    rw [if_pos (by omega)]
  · intro hret hnotfull hsrc
    simp only [rxInflateLoop, if_pos hret]
    have hlen : ((orc src idx).produced.take 4096).length ≤ 4096 := by
      rw [List.length_take]
      omega
    rw [if_neg (by omega), if_pos (by rw [hsrc]; rfl)]
  · intro hret hnotfull hsrc
    simp only [rxInflateLoop, if_pos hret]
    have hlen : ((orc src idx).produced.take 4096).length ≤ 4096 := by
      rw [List.length_take]
      omega
    rw [if_neg (by omega), if_neg (by
      intro hc
      exact hsrc (List.length_eq_zero.1 hc))]
  · intro hfail hmsg
    have hnone : inflFn true true orc fuel p = none := by
      unfold inflFn
      rw [hfail]
    simp only [handleDataFrame, hmsg, hnone, Bool.and_self]
    simp
  · intro hfail hmsg hcomp
    have hnone : inflFn true true orc fuel (st.fragMsg ++ p) = none := by
      unfold inflFn
      rw [hfail]
    simp only [handleContinuationFrame, hmsg, hcomp, hnone]
    simp

/-- Witness for C5: an oracle that always stalls (`Z_BUF_ERROR` with no
progress), exercised on the loop and on an unfragmented compressed
frame. -/
theorem c5_witness :
    (((fun _ _ => ⟨-5, 0, []⟩ : List Nat → Nat → InflStep) [1] 0).ret =
        zBufError ∧
      ((((fun _ _ => ⟨-5, 0, []⟩ : List Nat → Nat → InflStep) [1] 0).produced.take
          4096).length ≠ 4096) ∧
      [1].drop (min ((fun _ _ => ⟨-5, 0, []⟩ :
        List Nat → Nat → InflStep) [1] 0).consumed [1].length) ≠ [] ∧
      rxInflateLoop (fun _ _ => ⟨-5, 0, []⟩) (0 + 1) 0 [1] [] = .fail) ∧
    (rxInflate true true (fun _ _ => ⟨-5, 0, []⟩) 1 [7] = .fail ∧
      st0.msgInProgress = false ∧
      handleDataFrame (inflFn true true (fun _ _ => ⟨-5, 0, []⟩) 1) true st0
          [7] true 1 true =
        (st0, [.protocolError 1007])) :=
  ⟨⟨by decide, by decide, by decide,
    (c5_rxInflate_spec (fun _ _ => ⟨-5, 0, []⟩) 0 0 [1] [] [] [] st0 1).2.2.2.1
      (by decide) (by decide) (by decide)⟩,
   ⟨by decide, rfl,
    (c5_rxInflate_spec (fun _ _ => ⟨-5, 0, []⟩) 1 0 [] [] [] [7] st0 1).2.2.2.2.1
      (by decide) rfl⟩⟩

/-- Feeding one byte never produces a state that claims completion yet
differs from the reset state. -/
theorem utf8FeedByte_good (s : Utf8State) (b : Nat) (t : Utf8State)
    (h : utf8FeedByte s b = some t) (hn : t.need = 0) : t = utf8Init := by
  unfold utf8FeedByte at h
  by_cases h1 : 0 < s.need
  · rw [if_pos h1] at h
    by_cases h2 : s.lo ≤ b ∧ b ≤ s.hi
    · rw [if_pos h2] at h
      injection h with h
      subst h
      simp only [utf8Init, Utf8State.mk.injEq, and_true]
      exact hn
    · rw [if_neg h2] at h
      injection h
  · rw [if_neg h1] at h
    by_cases hA : b ≤ 0x7F
    · rw [if_pos hA] at h
      injection h with h
      subst h
      rfl
    rw [if_neg hA] at h
    by_cases hB : b = 0xC0 ∨ b = 0xC1 ∨ 0xF5 ≤ b
    · rw [if_pos hB] at h
      injection h
    rw [if_neg hB] at h
    by_cases hC : 0xC2 ≤ b ∧ b ≤ 0xDF
    · rw [if_pos hC] at h
      injection h with h
      subst h
      exact absurd hn (by decide)
    rw [if_neg hC] at h
    by_cases hD : b = 0xE0
    · rw [if_pos hD] at h
      injection h with h
      subst h
      exact absurd hn (by decide)
    rw [if_neg hD] at h
    by_cases hE : 0xE1 ≤ b ∧ b ≤ 0xEC
    · rw [if_pos hE] at h
      injection h with h
      subst h
      exact absurd hn (by decide)
    rw [if_neg hE] at h
    by_cases hF : b = 0xED
    · rw [if_pos hF] at h
      injection h with h
      subst h
      exact absurd hn (by decide)
    rw [if_neg hF] at h
    by_cases hG : 0xEE ≤ b ∧ b ≤ 0xEF
    · rw [if_pos hG] at h
      injection h with h
      subst h
      exact absurd hn (by decide)
    rw [if_neg hG] at h
    by_cases hH : b = 0xF0
    · rw [if_pos hH] at h
      injection h with h
      subst h
      exact absurd hn (by decide)
    rw [if_neg hH] at h
    by_cases hI : 0xF1 ≤ b ∧ b ≤ 0xF3
    · rw [if_pos hI] at h
      injection h with h
      subst h
      exact absurd hn (by decide)
    rw [if_neg hI] at h
    by_cases hJ : b = 0xF4
    · rw [if_pos hJ] at h
      injection h with h
      subst h
      exact absurd hn (by decide)
    rw [if_neg hJ] at h
    injection h

/-- Feeding a chunk preserves the collapse-to-reset property. -/
theorem utf8Feed_good : ∀ (bs : List Nat) (s u : Utf8State),
    utf8Feed s bs = some u → (s.need = 0 → s = utf8Init) →
    u.need = 0 → u = utf8Init := by
  intro bs
  induction bs with
  | nil =>
    intro s u h hg
    injection h with h
    subst h
    exact hg
  | cons b rest ih =>
    intro s u h hg
    unfold utf8Feed at h
    cases hb : utf8FeedByte s b with
    | none =>
      rw [hb] at h
      cases h
    | some t =>
      rw [hb] at h
      exact ih t u h (utf8FeedByte_good s b t hb)

/-- A full successful validation from the reset state ends back in the
reset state. -/
theorem utf8Feed_init_need0 (bs : List Nat) (u : Utf8State)
    (h : utf8Feed utf8Init bs = some u) (hn : u.need = 0) : u = utf8Init :=
  utf8Feed_good bs utf8Init u h (fun _ => rfl) hn

/-- C3: text-message UTF-8 policy.  Uncompressed text is validated
incrementally (initial fragment, every continuation chunk, final check),
an invalid chunk immediately yields `onRxProtocolError 1007` and no
`onRxText`; compressed text is validated exactly once, on the fully
decompressed reassembled payload; end-of-message validation failures
yield 1007; a delivered message produces exactly one `onRxText` with
the full payload and leaves the validator in the reset state. -/
theorem c3_text_utf8_policy
    (infl : List Nat → Option (List Nat)) (comp : Bool) (st : RecvState)
    (p d : List Nat) (rsv1 : Bool) (u : Utf8State) (fin : Bool) :
    (st.msgInProgress = false → (rsv1 && comp) = false →
      handleDataFrame infl comp st p true 1 rsv1 =
        ({ st with utf8 := utf8Init },
         if utf8ValidFull p then [.text p] else [.protocolError 1007])) ∧
    (st.msgInProgress = false → (rsv1 && comp) = true → infl p = some d →
      handleDataFrame infl comp st p true 1 rsv1 =
        ({ st with utf8 := utf8Init },
         if utf8ValidFull d then [.text d] else [.protocolError 1007])) ∧
    (st.msgInProgress = false → (rsv1 && comp) = false →
      utf8Feed utf8Init p = none →
      handleDataFrame infl comp st p false 1 rsv1 =
        ({ st with msgInProgress := true, fragOpcode := 1, fragMsg := p,
                   compressedInProgress := false, utf8 := utf8Init },
         [.protocolError 1007])) ∧
    (st.msgInProgress = false → (rsv1 && comp) = false →
      utf8Feed utf8Init p = some u →
      handleDataFrame infl comp st p false 1 rsv1 =
        ({ st with msgInProgress := true, fragOpcode := 1, fragMsg := p,
                   compressedInProgress := false, utf8 := u }, [])) ∧
    (st.msgInProgress = true → st.compressedInProgress = false →
      st.fragOpcode = 1 → utf8Feed st.utf8 p = none →
      handleContinuationFrame infl st p fin =
        ({ st with fragMsg := st.fragMsg ++ p, utf8 := utf8Init },
         [.protocolError 1007])) ∧
    (st.msgInProgress = true → st.compressedInProgress = false →
      st.fragOpcode = 1 → utf8Feed st.utf8 p = some u →
      handleContinuationFrame infl st p false =
        ({ st with fragMsg := st.fragMsg ++ p, utf8 := u }, [])) ∧
    (st.msgInProgress = true → st.compressedInProgress = false →
      st.fragOpcode = 1 → utf8Feed st.utf8 p = some u →
      handleContinuationFrame infl st p true =
        (if u.need = 0 then
          ({ st with msgInProgress := false, compressedInProgress := false,
                     fragMsg := [], fragOpcode := 0, utf8 := utf8Init },
           [.text (st.fragMsg ++ p)])
         else
          ({ st with fragMsg := st.fragMsg ++ p, utf8 := utf8Init },
           [.protocolError 1007]))) ∧
    (st.msgInProgress = true → st.compressedInProgress = true →
      handleContinuationFrame infl st p false =
        ({ st with fragMsg := st.fragMsg ++ p }, [])) ∧
    (st.msgInProgress = true → st.compressedInProgress = true →
      st.fragOpcode = 1 → infl (st.fragMsg ++ p) = some d →
      handleContinuationFrame infl st p true =
        (if utf8ValidFull d then
          ({ st with msgInProgress := false, compressedInProgress := false,
                     fragMsg := [], fragOpcode := 0, utf8 := utf8Init },
           [.text d])
         else
          ({ st with fragMsg := d, utf8 := utf8Init },
           [.protocolError 1007]))) := by
  refine ⟨?_, ?_, ?_, ?_, ?_, ?_, ?_, ?_, ?_⟩
  · intro h1 h2
    rcases hfeed : utf8Feed utf8Init p with _ | u'
    · simp [handleDataFrame, h1, h2, hfeed, utf8ValidFull]
    · by_cases hn : u'.need = 0
      · have hu := utf8Feed_init_need0 p u' hfeed hn
        subst hu
        simp [handleDataFrame, h1, h2, hfeed, utf8ValidFull, hn]
      · simp [handleDataFrame, h1, h2, hfeed, utf8ValidFull, hn]
  · intro h1 h2 hinfl
    rcases hfeed : utf8Feed utf8Init d with _ | u'
    · simp [handleDataFrame, h1, h2, hinfl, hfeed, utf8ValidFull]
    · by_cases hn : u'.need = 0
      · have hu := utf8Feed_init_need0 d u' hfeed hn
        subst hu
        simp [handleDataFrame, h1, h2, hinfl, hfeed, utf8ValidFull, hn]
      · simp [handleDataFrame, h1, h2, hinfl, hfeed, utf8ValidFull, hn]
  · intro h1 h2 hfeed
    simp [handleDataFrame, h1, h2, hfeed]
  · intro h1 h2 hfeed
    simp [handleDataFrame, h1, h2, hfeed]
  · intro h1 h2 h3 hfeed
    simp [handleContinuationFrame, h1, h2, h3, hfeed]
  · intro h1 h2 h3 hfeed
    simp [handleContinuationFrame, h1, h2, h3, hfeed]
  · intro h1 h2 h3 hfeed
    by_cases hn : u.need = 0
    · simp [handleContinuationFrame, contFinish, h1, h2, h3, hfeed, hn]
    · simp [handleContinuationFrame, contFinish, h1, h2, h3, hfeed, hn]
  · intro h1 h2
    simp [handleContinuationFrame, h1, h2]
  · intro h1 h2 h3 hinfl
    rcases hfeed : utf8Feed utf8Init d with _ | u'
    · simp [handleContinuationFrame, contFinish, h1, h2, h3, hinfl, hfeed,
        utf8ValidFull]
    · by_cases hn : u'.need = 0
      · simp [handleContinuationFrame, contFinish, h1, h2, h3, hinfl, hfeed,
          utf8ValidFull, hn]
      · simp [handleContinuationFrame, contFinish, h1, h2, h3, hinfl, hfeed,
          utf8ValidFull, hn]

/-- Witness for C3: a one-byte unfragmented text message, and the final
continuation frame of a fragmented uncompressed text message. -/
theorem c3_witness :
    (st0.msgInProgress = false ∧ (false && false) = false ∧
      handleDataFrame (fun _ => none) false st0 [0x61] true 1 false =
        ({ st0 with utf8 := utf8Init },
         if utf8ValidFull [0x61] then [.text [0x61]]
         else [.protocolError 1007])) ∧
    (stInProg.msgInProgress = true ∧ stInProg.compressedInProgress = false ∧
      stInProg.fragOpcode = 1 ∧
      utf8Feed stInProg.utf8 [0x62] = some utf8Init ∧
      handleContinuationFrame (fun _ => none) stInProg [0x62] true =
        (if utf8Init.need = 0 then
          ({ stInProg with msgInProgress := false,
                           compressedInProgress := false, fragMsg := [],
                           fragOpcode := 0, utf8 := utf8Init },
           [.text (stInProg.fragMsg ++ [0x62])])
         else
          ({ stInProg with fragMsg := stInProg.fragMsg ++ [0x62],
                           utf8 := utf8Init },
           [.protocolError 1007]))) :=
  ⟨⟨rfl, rfl,
    (c3_text_utf8_policy (fun _ => none) false st0 [0x61] [] false utf8Init
      true).1 rfl rfl⟩,
   ⟨rfl, rfl, rfl, by decide,
    (c3_text_utf8_policy (fun _ => none) false stInProg [0x62] [] false
      utf8Init true).2.2.2.2.2.2.1 rfl rfl rfl (by decide)⟩⟩

/-- Bitmask test for 2-byte lead bytes, as a range check. -/
theorem and_e0_iff : ∀ b : Nat, b < 256 →
    (b &&& 0xE0 = 0xC0 ↔ 0xC0 ≤ b ∧ b ≤ 0xDF) := by decide

/-- Bitmask test for 3-byte lead bytes, as a range check. -/
theorem and_f0_iff : ∀ b : Nat, b < 256 →
    (b &&& 0xF0 = 0xE0 ↔ 0xE0 ≤ b ∧ b ≤ 0xEF) := by decide

/-- Bitmask test for 4-byte lead bytes, as a range check. -/
theorem and_f8_iff : ∀ b : Nat, b < 256 →
    (b &&& 0xF8 = 0xF0 ↔ 0xF0 ≤ b ∧ b ≤ 0xF7) := by decide

/-- Bitmask test for continuation bytes, as a range check. -/
theorem and_c0_iff : ∀ b : Nat, b < 256 →
    (b &&& 0xC0 = 0x80 ↔ 0x80 ≤ b ∧ b ≤ 0xBF) := by decide

/-- An ASCII byte is skipped by the validator. -/
theorem valid_ascii (b : Nat) (rest : List Nat) (hb : b ≤ 0x7F) :
    isValidUtf8 (b :: rest) = isValidUtf8 rest := by
  rw [isValidUtf8.eq_2, if_pos hb]

/-- Bytes 0xC0, 0xC1 and 0xF5.. are rejected outright. -/
theorem valid_bad (b : Nat) (rest : List Nat) (h1 : ¬ b ≤ 0x7F)
    (h2 : 0xF5 ≤ b ∨ (0xC0 ≤ b ∧ b ≤ 0xC1)) :
    isValidUtf8 (b :: rest) = false := by
  rw [isValidUtf8.eq_2, if_neg h1, if_pos h2]

/-- A byte in 0x80..0xBF cannot start a sequence. -/
theorem valid_stray (b : Nat) (rest : List Nat) (hb : 0x80 ≤ b ∧ b ≤ 0xBF) :
    isValidUtf8 (b :: rest) = false := by
  have h1 : ¬ b ≤ 0x7F := by omega
  have h2 : ¬ (0xF5 ≤ b ∨ (0xC0 ≤ b ∧ b ≤ 0xC1)) := by omega
  have h3 : ¬ b &&& 0xE0 = 0xC0 := fun hc => by
    have := (and_e0_iff b (by omega)).1 hc
    omega
  have h4 : ¬ b &&& 0xF0 = 0xE0 := fun hc => by
    have := (and_f0_iff b (by omega)).1 hc
    omega
  have h5 : ¬ b &&& 0xF8 = 0xF0 := fun hc => by
    have := (and_f8_iff b (by omega)).1 hc
    omega
  rw [isValidUtf8.eq_2, if_neg h1, if_neg h2, if_neg h3, if_neg h4, if_neg h5]

/-- Validator step for a 2-byte lead with its continuation byte. -/
theorem valid2_cons (b b1 : Nat) (rest : List Nat)
    (hb : 0xC2 ≤ b ∧ b ≤ 0xDF) (hb1 : b1 < 256) :
    isValidUtf8 (b :: b1 :: rest) =
      if 0x80 ≤ b1 ∧ b1 ≤ 0xBF then isValidUtf8 rest else false := by
  have h1 : ¬ b ≤ 0x7F := by omega
  have h2 : ¬ (0xF5 ≤ b ∨ (0xC0 ≤ b ∧ b ≤ 0xC1)) := by omega
  have h3 : b &&& 0xE0 = 0xC0 := (and_e0_iff b (by omega)).2 ⟨by omega, hb.2⟩
  rw [isValidUtf8.eq_2, if_neg h1, if_neg h2, if_pos h3, utf8Tail1.eq_1]
  by_cases hc : 0x80 ≤ b1 ∧ b1 ≤ 0xBF
  · have e1 : b1 &&& 0xC0 = 0x80 := (and_c0_iff b1 hb1).2 hc
    rw [if_neg (not_not_intro e1), if_pos hc]
  · have e1 : ¬ b1 &&& 0xC0 = 0x80 := fun hcc => hc ((and_c0_iff b1 hb1).1 hcc)
    rw [if_pos e1, if_neg hc]

/-- A 2-byte lead truncated by the end of the string is invalid. -/
theorem valid2_short (b : Nat) (hb : 0xC2 ≤ b ∧ b ≤ 0xDF) :
    isValidUtf8 [b] = false := by
  have h1 : ¬ b ≤ 0x7F := by omega
  have h2 : ¬ (0xF5 ≤ b ∨ (0xC0 ≤ b ∧ b ≤ 0xC1)) := by omega
  have h3 : b &&& 0xE0 = 0xC0 := (and_e0_iff b (by omega)).2 ⟨by omega, hb.2⟩
  rw [isValidUtf8.eq_2, if_neg h1, if_neg h2, if_pos h3]
  exact utf8Tail1.eq_2 [] (by intro b1 rest1 h; exact List.noConfusion h)

/-- Validator step for a 3-byte lead with its two continuation bytes. -/
theorem valid3_cons (b b1 b2 : Nat) (rest : List Nat)
    (hb : 0xE0 ≤ b ∧ b ≤ 0xEF) (hb1 : b1 < 256) (hb2 : b2 < 256) :
    isValidUtf8 (b :: b1 :: b2 :: rest) =
      if (0x80 ≤ b1 ∧ b1 ≤ 0xBF) ∧ (0x80 ≤ b2 ∧ b2 ≤ 0xBF) ∧
         ¬ (b = 0xE0 ∧ b1 < 0xA0) ∧ ¬ (b = 0xED ∧ 0xA0 ≤ b1)
      then isValidUtf8 rest else false := by
  have h1 : ¬ b ≤ 0x7F := by omega
  have h2 : ¬ (0xF5 ≤ b ∨ (0xC0 ≤ b ∧ b ≤ 0xC1)) := by omega
  have h3 : ¬ b &&& 0xE0 = 0xC0 := fun hc => by
    have := (and_e0_iff b (by omega)).1 hc
    omega
  have h4 : b &&& 0xF0 = 0xE0 := (and_f0_iff b (by omega)).2 hb
  rw [isValidUtf8.eq_2, if_neg h1, if_neg h2, if_neg h3, if_pos h4,
    utf8Tail2.eq_1]
  by_cases hc1 : 0x80 ≤ b1 ∧ b1 ≤ 0xBF
  · by_cases hc2 : 0x80 ≤ b2 ∧ b2 ≤ 0xBF
    · have e1 : b1 &&& 0xC0 = 0x80 := (and_c0_iff b1 hb1).2 hc1
      have e2 : b2 &&& 0xC0 = 0x80 := (and_c0_iff b2 hb2).2 hc2
      rw [if_neg (show ¬ (¬ b1 &&& 0xC0 = 0x80 ∨ ¬ b2 &&& 0xC0 = 0x80) by
        simp [e1, e2])]
      by_cases ho : b = 0xE0 ∧ b1 < 0xA0
      · rw [if_pos ho, if_neg (by simp [ho])]
      · rw [if_neg ho]
        by_cases hs : b = 0xED ∧ 0xA0 ≤ b1
        · rw [if_pos hs, if_neg (by simp [hs])]
        · rw [if_neg hs, if_pos ⟨hc1, hc2, ho, hs⟩]
    · have e2 : ¬ b2 &&& 0xC0 = 0x80 := fun hcc => hc2 ((and_c0_iff b2 hb2).1 hcc)
      rw [if_pos (Or.inr e2), if_neg (by simp [hc2])]
  · have e1 : ¬ b1 &&& 0xC0 = 0x80 := fun hcc => hc1 ((and_c0_iff b1 hb1).1 hcc)
    rw [if_pos (Or.inl e1), if_neg (by simp [hc1])]

/-- A 3-byte lead with no bytes after it is invalid. -/
theorem valid3_short1 (b : Nat) (hb : 0xE0 ≤ b ∧ b ≤ 0xEF) :
    isValidUtf8 [b] = false := by
  have h1 : ¬ b ≤ 0x7F := by omega
  have h2 : ¬ (0xF5 ≤ b ∨ (0xC0 ≤ b ∧ b ≤ 0xC1)) := by omega
  have h3 : ¬ b &&& 0xE0 = 0xC0 := fun hc => by
    have := (and_e0_iff b (by omega)).1 hc
    omega
  have h4 : b &&& 0xF0 = 0xE0 := (and_f0_iff b (by omega)).2 hb
  rw [isValidUtf8.eq_2, if_neg h1, if_neg h2, if_neg h3, if_pos h4]
  exact utf8Tail2.eq_2 b []
    (by intro b1 b2 rest2 h; exact List.noConfusion h)

/-- A 3-byte lead with a single byte after it is invalid. -/
theorem valid3_short2 (b b1 : Nat) (hb : 0xE0 ≤ b ∧ b ≤ 0xEF) :
    isValidUtf8 [b, b1] = false := by
  have h1 : ¬ b ≤ 0x7F := by omega
  have h2 : ¬ (0xF5 ≤ b ∨ (0xC0 ≤ b ∧ b ≤ 0xC1)) := by omega
  have h3 : ¬ b &&& 0xE0 = 0xC0 := fun hc => by
    have := (and_e0_iff b (by omega)).1 hc
    omega
  have h4 : b &&& 0xF0 = 0xE0 := (and_f0_iff b (by omega)).2 hb
  rw [isValidUtf8.eq_2, if_neg h1, if_neg h2, if_neg h3, if_pos h4]
  exact utf8Tail2.eq_2 b [b1]
    (by
      intro c1 c2 rest2 h
      injection h with e1 e2
      exact List.noConfusion e2)

/-- Validator step for a 4-byte lead with its three continuation bytes. -/
theorem valid4_cons (b b1 b2 b3 : Nat) (rest : List Nat)
    (hb : 0xF0 ≤ b ∧ b ≤ 0xF4) (hb1 : b1 < 256) (hb2 : b2 < 256)
    (hb3 : b3 < 256) :
    isValidUtf8 (b :: b1 :: b2 :: b3 :: rest) =
      if (0x80 ≤ b1 ∧ b1 ≤ 0xBF) ∧ (0x80 ≤ b2 ∧ b2 ≤ 0xBF) ∧
         (0x80 ≤ b3 ∧ b3 ≤ 0xBF) ∧
         ¬ (b = 0xF0 ∧ b1 < 0x90) ∧ ¬ (b = 0xF4 ∧ 0x8F < b1)
      then isValidUtf8 rest else false := by
  have h1 : ¬ b ≤ 0x7F := by omega
  have h2 : ¬ (0xF5 ≤ b ∨ (0xC0 ≤ b ∧ b ≤ 0xC1)) := by omega
  have h3 : ¬ b &&& 0xE0 = 0xC0 := fun hc => by
    have := (and_e0_iff b (by omega)).1 hc
    omega
  have h4 : ¬ b &&& 0xF0 = 0xE0 := fun hc => by
    have := (and_f0_iff b (by omega)).1 hc
    omega
  have h5 : b &&& 0xF8 = 0xF0 := (and_f8_iff b (by omega)).2 ⟨hb.1, by omega⟩
  rw [isValidUtf8.eq_2, if_neg h1, if_neg h2, if_neg h3, if_neg h4, if_pos h5,
    utf8Tail3.eq_1]
  by_cases hc1 : 0x80 ≤ b1 ∧ b1 ≤ 0xBF
  · by_cases hc2 : 0x80 ≤ b2 ∧ b2 ≤ 0xBF
    · by_cases hc3 : 0x80 ≤ b3 ∧ b3 ≤ 0xBF
      · have e1 : b1 &&& 0xC0 = 0x80 := (and_c0_iff b1 hb1).2 hc1
        have e2 : b2 &&& 0xC0 = 0x80 := (and_c0_iff b2 hb2).2 hc2
        have e3 : b3 &&& 0xC0 = 0x80 := (and_c0_iff b3 hb3).2 hc3
        rw [if_neg (show ¬ (¬ b1 &&& 0xC0 = 0x80 ∨ ¬ b2 &&& 0xC0 = 0x80 ∨
            ¬ b3 &&& 0xC0 = 0x80) by simp [e1, e2, e3])]
        by_cases ho : b = 0xF0 ∧ b1 < 0x90
        · rw [if_pos ho, if_neg (by simp [ho])]
        · rw [if_neg ho]
          by_cases hs : b = 0xF4 ∧ 0x8F < b1
          · rw [if_pos hs, if_neg (by simp [hs])]
          · rw [if_neg hs, if_pos ⟨hc1, hc2, hc3, ho, hs⟩]
      · have e3 : ¬ b3 &&& 0xC0 = 0x80 := fun hcc =>
          hc3 ((and_c0_iff b3 hb3).1 hcc)
        rw [if_pos (Or.inr (Or.inr e3)), if_neg (by simp [hc3])]
    · have e2 : ¬ b2 &&& 0xC0 = 0x80 := fun hcc =>
        hc2 ((and_c0_iff b2 hb2).1 hcc)
      rw [if_pos (Or.inr (Or.inl e2)), if_neg (by simp [hc2])]
  · have e1 : ¬ b1 &&& 0xC0 = 0x80 := fun hcc => hc1 ((and_c0_iff b1 hb1).1 hcc)
    rw [if_pos (Or.inl e1), if_neg (by simp [hc1])]

/-- A 4-byte lead with no bytes after it is invalid. -/
theorem valid4_short1 (b : Nat) (hb : 0xF0 ≤ b ∧ b ≤ 0xF4) :
    isValidUtf8 [b] = false := by
  have h1 : ¬ b ≤ 0x7F := by omega
  have h2 : ¬ (0xF5 ≤ b ∨ (0xC0 ≤ b ∧ b ≤ 0xC1)) := by omega
  have h3 : ¬ b &&& 0xE0 = 0xC0 := fun hc => by
    have := (and_e0_iff b (by omega)).1 hc
    omega
  have h4 : ¬ b &&& 0xF0 = 0xE0 := fun hc => by
    have := (and_f0_iff b (by omega)).1 hc
    omega
  have h5 : b &&& 0xF8 = 0xF0 := (and_f8_iff b (by omega)).2 ⟨hb.1, by omega⟩
  rw [isValidUtf8.eq_2, if_neg h1, if_neg h2, if_neg h3, if_neg h4, if_pos h5]
  exact utf8Tail3.eq_2 b []
    (by intro c1 c2 c3 rest3 h; exact List.noConfusion h)

/-- A 4-byte lead with one byte after it is invalid. -/
theorem valid4_short2 (b b1 : Nat) (hb : 0xF0 ≤ b ∧ b ≤ 0xF4) :
    isValidUtf8 [b, b1] = false := by
  have h1 : ¬ b ≤ 0x7F := by omega
  have h2 : ¬ (0xF5 ≤ b ∨ (0xC0 ≤ b ∧ b ≤ 0xC1)) := by omega
  have h3 : ¬ b &&& 0xE0 = 0xC0 := fun hc => by
    have := (and_e0_iff b (by omega)).1 hc
    omega
  have h4 : ¬ b &&& 0xF0 = 0xE0 := fun hc => by
    have := (and_f0_iff b (by omega)).1 hc
    omega
  have h5 : b &&& 0xF8 = 0xF0 := (and_f8_iff b (by omega)).2 ⟨hb.1, by omega⟩
  rw [isValidUtf8.eq_2, if_neg h1, if_neg h2, if_neg h3, if_neg h4, if_pos h5]
  exact utf8Tail3.eq_2 b [b1]
    (by
      intro c1 c2 c3 rest3 h
      injection h with e1 e2
      exact List.noConfusion e2)

/-- A 4-byte lead with two bytes after it is invalid. -/
theorem valid4_short3 (b b1 b2 : Nat) (hb : 0xF0 ≤ b ∧ b ≤ 0xF4) :
    isValidUtf8 [b, b1, b2] = false := by
  have h1 : ¬ b ≤ 0x7F := by omega
  have h2 : ¬ (0xF5 ≤ b ∨ (0xC0 ≤ b ∧ b ≤ 0xC1)) := by omega
  have h3 : ¬ b &&& 0xE0 = 0xC0 := fun hc => by
    have := (and_e0_iff b (by omega)).1 hc
    omega
  have h4 : ¬ b &&& 0xF0 = 0xE0 := fun hc => by
    have := (and_f0_iff b (by omega)).1 hc
    omega
  have h5 : b &&& 0xF8 = 0xF0 := (and_f8_iff b (by omega)).2 ⟨hb.1, by omega⟩
  rw [isValidUtf8.eq_2, if_neg h1, if_neg h2, if_neg h3, if_neg h4, if_pos h5]
  exact utf8Tail3.eq_2 b [b1, b2]
    (by
      intro c1 c2 c3 rest3 h
      injection h with e1 e2
      injection e2 with e3 e4
      exact List.noConfusion e4)

/-- The validator accepts the encoding of any scalar value followed by
any accepted tail. -/
theorem encode_valid_append (c : Nat) (rest : List Nat) (hc : IsScalar c) :
    isValidUtf8 (utf8EncodeCp c ++ rest) = isValidUtf8 rest := by
  obtain ⟨hle, hsur⟩ := hc
  by_cases h1 : c < 0x80
  · have he : utf8EncodeCp c = [c] := by
      unfold utf8EncodeCp
      rw [if_pos h1]
    rw [he, List.cons_append, List.nil_append]
    exact valid_ascii c rest (by omega)
  · by_cases h2 : c < 0x800
    · have he : utf8EncodeCp c = [0xC0 + c / 64, 0x80 + c % 64] := by
        unfold utf8EncodeCp
        rw [if_neg h1, if_pos h2]
      rw [he, List.cons_append, List.cons_append, List.nil_append]
      rw [valid2_cons _ _ _ ⟨by omega, by omega⟩ (by omega)]
      rw [if_pos ⟨by omega, by omega⟩]
    · by_cases h3 : c < 0x10000
      · have he : utf8EncodeCp c =
            [0xE0 + c / 4096, 0x80 + c / 64 % 64, 0x80 + c % 64] := by
          unfold utf8EncodeCp
          rw [if_neg h1, if_neg h2, if_pos h3]
        rw [he, List.cons_append, List.cons_append, List.cons_append,
          List.nil_append]
        rw [valid3_cons _ _ _ _ ⟨by omega, by omega⟩ (by omega) (by omega)]
        rw [if_pos ⟨⟨by omega, by omega⟩, ⟨by omega, by omega⟩, by omega,
          by omega⟩]
      · have he : utf8EncodeCp c =
            [0xF0 + c / 262144, 0x80 + c / 4096 % 64, 0x80 + c / 64 % 64,
             0x80 + c % 64] := by
          unfold utf8EncodeCp
          rw [if_neg h1, if_neg h2, if_neg h3]
        rw [he, List.cons_append, List.cons_append, List.cons_append,
          List.cons_append, List.nil_append]
        rw [valid4_cons _ _ _ _ _ ⟨by omega, by omega⟩ (by omega) (by omega)
          (by omega)]
        rw [if_pos ⟨⟨by omega, by omega⟩, ⟨by omega, by omega⟩,
          ⟨by omega, by omega⟩, by omega, by omega⟩]

/-- The validator accepts every concatenation of scalar encodings. -/
theorem chain_valid : ∀ cs : List Nat, (∀ c ∈ cs, IsScalar c) →
    isValidUtf8 ((cs.map utf8EncodeCp).flatten) = true := by
  intro cs
  induction cs with
  | nil => intro _; rfl
  | cons c cs ih =>
    intro h
    simp only [List.map_cons, List.flatten_cons]
    rw [encode_valid_append c _ (h c (List.mem_cons_self c cs))]
    exact ih (fun x hx => h x (List.mem_cons_of_mem c hx))

/-- Every byte string of bytes accepted by the validator decomposes into
a concatenation of scalar-value encodings (strong induction on the
length). -/
theorem utf8_sound : ∀ (n : Nat) (bs : List Nat), bs.length ≤ n →
    (∀ b ∈ bs, b < 256) → isValidUtf8 bs = true → IsUtf8Chain bs := by
  intro n
  induction n with
  | zero =>
    intro bs hlen _ _
    have hbs : bs = [] := List.length_eq_zero.1 (by omega)
    subst hbs
    exact ⟨[], by simp, rfl⟩
  | succ n ih =>
    intro bs hlen hbyte hvalid
    cases bs with
    | nil => exact ⟨[], by simp, rfl⟩
    | cons b rest =>
      have hb : b < 256 := hbyte b (List.mem_cons_self b rest)
      by_cases h1 : b ≤ 0x7F
      · rw [valid_ascii b rest h1] at hvalid
        obtain ⟨cs, hsc, hjoin⟩ := ih rest
          (by simp only [List.length_cons] at hlen; omega)
          (fun x hx => hbyte x (List.mem_cons_of_mem b hx)) hvalid
        refine ⟨b :: cs, ?_, ?_⟩
        · intro x hx
          rcases List.mem_cons.1 hx with rfl | hx
          · exact ⟨by omega, by omega⟩
          · exact hsc x hx
        · have he : utf8EncodeCp b = [b] := by
            unfold utf8EncodeCp
            rw [if_pos (by omega)]
          simp only [List.map_cons, List.flatten_cons, he]
          rw [← hjoin]
          rfl
      · by_cases hbad : 0xF5 ≤ b ∨ (0xC0 ≤ b ∧ b ≤ 0xC1)
        · rw [valid_bad b rest h1 hbad] at hvalid
          exact absurd hvalid (by simp)
        · by_cases h2 : 0xC2 ≤ b ∧ b ≤ 0xDF
          · cases rest with
            | nil =>
              rw [valid2_short b h2] at hvalid
              exact absurd hvalid (by simp)
            | cons b1 rest1 =>
              have hb1 : b1 < 256 := hbyte b1 (by simp)
              rw [valid2_cons b b1 rest1 h2 hb1] at hvalid
              by_cases hc1 : 0x80 ≤ b1 ∧ b1 ≤ 0xBF
              · rw [if_pos hc1] at hvalid
                obtain ⟨cs, hsc, hjoin⟩ := ih rest1
                  (by simp only [List.length_cons] at hlen; omega)
                  (fun x hx => hbyte x (by simp [hx])) hvalid
                refine ⟨((b - 0xC0) * 64 + (b1 - 0x80)) :: cs, ?_, ?_⟩
                · intro x hx
                  rcases List.mem_cons.1 hx with rfl | hx
                  · exact ⟨by omega, by omega⟩
                  · exact hsc x hx
                · have he : utf8EncodeCp ((b - 0xC0) * 64 + (b1 - 0x80)) =
                      [b, b1] := by
                    unfold utf8EncodeCp
                    rw [if_neg (by omega), if_pos (by omega)]
                    have e1 : ((b - 0xC0) * 64 + (b1 - 0x80)) / 64 =
                        b - 0xC0 := by omega
                    have e2 : ((b - 0xC0) * 64 + (b1 - 0x80)) % 64 =
                        b1 - 0x80 := by omega
                    rw [e1, e2]
                    have e3 : 0xC0 + (b - 0xC0) = b := by omega
                    have e4 : 0x80 + (b1 - 0x80) = b1 := by omega
                    rw [e3, e4]
                  simp only [List.map_cons, List.flatten_cons, he]
                  rw [← hjoin]
                  rfl
              · rw [if_neg hc1] at hvalid
                exact absurd hvalid (by simp)
          · by_cases h3 : 0xE0 ≤ b ∧ b ≤ 0xEF
            · cases rest with
              | nil =>
                rw [valid3_short1 b h3] at hvalid
                exact absurd hvalid (by simp)
              | cons b1 rest1 =>
                cases rest1 with
                | nil =>
                  rw [valid3_short2 b b1 h3] at hvalid
                  exact absurd hvalid (by simp)
                | cons b2 rest2 =>
                  have hb1 : b1 < 256 := hbyte b1 (by simp)
                  have hb2 : b2 < 256 := hbyte b2 (by simp)
                  rw [valid3_cons b b1 b2 rest2 h3 hb1 hb2] at hvalid
                  by_cases hcnd : (0x80 ≤ b1 ∧ b1 ≤ 0xBF) ∧
                      (0x80 ≤ b2 ∧ b2 ≤ 0xBF) ∧
                      ¬ (b = 0xE0 ∧ b1 < 0xA0) ∧ ¬ (b = 0xED ∧ 0xA0 ≤ b1)
                  · rw [if_pos hcnd] at hvalid
                    obtain ⟨cs, hsc, hjoin⟩ := ih rest2
                      (by simp only [List.length_cons] at hlen; omega)
                      (fun x hx => hbyte x (by simp [hx])) hvalid
                    obtain ⟨⟨hc1a, hc1b⟩, ⟨hc2a, hc2b⟩, ho, hs⟩ := hcnd
                    refine ⟨((b - 0xE0) * 4096 + (b1 - 0x80) * 64 +
                      (b2 - 0x80)) :: cs, ?_, ?_⟩
                    · intro x hx
                      rcases List.mem_cons.1 hx with rfl | hx
                      · exact ⟨by omega, by omega⟩
                      · exact hsc x hx
                    · have he : utf8EncodeCp ((b - 0xE0) * 4096 +
                          (b1 - 0x80) * 64 + (b2 - 0x80)) = [b, b1, b2] := by
                        unfold utf8EncodeCp
                        rw [if_neg (by omega), if_neg (by omega),
                          if_pos (by omega)]
                        have e1 : ((b - 0xE0) * 4096 + (b1 - 0x80) * 64 +
                            (b2 - 0x80)) / 4096 = b - 0xE0 := by omega
                        have e2 : ((b - 0xE0) * 4096 + (b1 - 0x80) * 64 +
                            (b2 - 0x80)) / 64 % 64 = b1 - 0x80 := by omega
                        have e3 : ((b - 0xE0) * 4096 + (b1 - 0x80) * 64 +
                            (b2 - 0x80)) % 64 = b2 - 0x80 := by omega
                        rw [e1, e2, e3]
                        have f1 : 0xE0 + (b - 0xE0) = b := by omega
                        have f2 : 0x80 + (b1 - 0x80) = b1 := by omega
                        have f3 : 0x80 + (b2 - 0x80) = b2 := by omega
                        rw [f1, f2, f3]
                      simp only [List.map_cons, List.flatten_cons, he]
                      rw [← hjoin]
                      rfl
                  · rw [if_neg hcnd] at hvalid
                    exact absurd hvalid (by simp)
            · by_cases h4 : 0xF0 ≤ b ∧ b ≤ 0xF4
              · cases rest with
                | nil =>
                  rw [valid4_short1 b h4] at hvalid
                  exact absurd hvalid (by simp)
                | cons b1 rest1 =>
                  cases rest1 with
                  | nil =>
                    rw [valid4_short2 b b1 h4] at hvalid
                    exact absurd hvalid (by simp)
                  | cons b2 rest2 =>
                    cases rest2 with
                    | nil =>
                      rw [valid4_short3 b b1 b2 h4] at hvalid
                      exact absurd hvalid (by simp)
                    | cons b3 rest3 =>
                      have hb1 : b1 < 256 := hbyte b1 (by simp)
                      have hb2 : b2 < 256 := hbyte b2 (by simp)
                      have hb3 : b3 < 256 := hbyte b3 (by simp)
                      rw [valid4_cons b b1 b2 b3 rest3 h4 hb1 hb2 hb3]
                        at hvalid
                      by_cases hcnd : (0x80 ≤ b1 ∧ b1 ≤ 0xBF) ∧
                          (0x80 ≤ b2 ∧ b2 ≤ 0xBF) ∧ (0x80 ≤ b3 ∧ b3 ≤ 0xBF) ∧
                          ¬ (b = 0xF0 ∧ b1 < 0x90) ∧ ¬ (b = 0xF4 ∧ 0x8F < b1)
                      · rw [if_pos hcnd] at hvalid
                        obtain ⟨cs, hsc, hjoin⟩ := ih rest3
                          (by simp only [List.length_cons] at hlen; omega)
                          (fun x hx => hbyte x (by simp [hx])) hvalid
                        obtain ⟨⟨hc1a, hc1b⟩, ⟨hc2a, hc2b⟩, ⟨hc3a, hc3b⟩,
                          ho, hs⟩ := hcnd
                        refine ⟨((b - 0xF0) * 262144 + (b1 - 0x80) * 4096 +
                          (b2 - 0x80) * 64 + (b3 - 0x80)) :: cs, ?_, ?_⟩
                        · intro x hx
                          rcases List.mem_cons.1 hx with rfl | hx
                          · exact ⟨by omega, by omega⟩
                          · exact hsc x hx
                        · have he : utf8EncodeCp ((b - 0xF0) * 262144 +
                              (b1 - 0x80) * 4096 + (b2 - 0x80) * 64 +
                              (b3 - 0x80)) = [b, b1, b2, b3] := by
                            unfold utf8EncodeCp
                            rw [if_neg (by omega), if_neg (by omega),
                              if_neg (by omega)]
                            have e1 : ((b - 0xF0) * 262144 +
                                (b1 - 0x80) * 4096 + (b2 - 0x80) * 64 +
                                (b3 - 0x80)) / 262144 = b - 0xF0 := by omega
                            have e2 : ((b - 0xF0) * 262144 +
                                (b1 - 0x80) * 4096 + (b2 - 0x80) * 64 +
                                (b3 - 0x80)) / 4096 % 64 = b1 - 0x80 := by
                              omega
                            have e3 : ((b - 0xF0) * 262144 +
                                (b1 - 0x80) * 4096 + (b2 - 0x80) * 64 +
                                (b3 - 0x80)) / 64 % 64 = b2 - 0x80 := by omega
                            have e4 : ((b - 0xF0) * 262144 +
                                (b1 - 0x80) * 4096 + (b2 - 0x80) * 64 +
                                (b3 - 0x80)) % 64 = b3 - 0x80 := by omega
                            rw [e1, e2, e3, e4]
                            have f1 : 0xF0 + (b - 0xF0) = b := by omega
                            have f2 : 0x80 + (b1 - 0x80) = b1 := by omega
                            have f3 : 0x80 + (b2 - 0x80) = b2 := by omega
                            have f4 : 0x80 + (b3 - 0x80) = b3 := by omega
                            rw [f1, f2, f3, f4]
                          simp only [List.map_cons, List.flatten_cons, he]
                          rw [← hjoin]
                          rfl
                      · rw [if_neg hcnd] at hvalid
                        exact absurd hvalid (by simp)
              · have hstray : 0x80 ≤ b ∧ b ≤ 0xBF := by omega
                rw [valid_stray b rest hstray] at hvalid
                exact absurd hvalid (by simp)

/-- C9: `isValidUtf8` accepts a byte string exactly when it is a
concatenation of RFC 3629 encodings of Unicode scalar values: all
malformed inputs (0xC0/0xC1/0xF5.., overlongs, surrogates, code points
above U+10FFFF, bad continuations, truncated sequences) are rejected,
and every well-formed string is accepted. -/
theorem c9_isValidUtf8_iff (bs : List Nat) (hb : ∀ b ∈ bs, b < 256) :
    isValidUtf8 bs = true ↔ IsUtf8Chain bs := by
  constructor
  · exact utf8_sound bs.length bs (Nat.le_refl _) hb
  · rintro ⟨cs, hsc, hjoin⟩
    rw [hjoin]
    exact chain_valid cs hsc

/-- Witness for C9 at the encoding of U+20AC. -/
theorem c9_witness :
    (∀ b ∈ [0xE2, 0x82, 0xAC], b < 256) ∧
    (isValidUtf8 [0xE2, 0x82, 0xAC] = true ↔ IsUtf8Chain [0xE2, 0x82, 0xAC]) :=
  ⟨by decide, c9_isValidUtf8_iff [0xE2, 0x82, 0xAC] (by decide)⟩
